import Mathlib

/-!
# Verification of the tuber request-handling pipeline

A shallow embedding of the core of the `tuberd` server (`tuber/server.py`)
and the client codec layer (`py/tuber/codecs.py`, `py/tuber/tuber.py`,
`tuber/client.py`), together with theorems settling the specification
claims about it.

Conventions of the embedding:

* Python exceptions are values of `PyErr` (class name + `str(e)`), and
  fallible code returns `Except PyErr _`.
* Python dictionaries are association lists in insertion order; setting a
  fresh key appends an entry.
* Plain JSON/CBOR-serialisable data (the argument and result universe of
  remote methods) is `PyValue`.  Arbitrary Python objects reachable from
  the registry are `PyNode`: plain data, callables, tuber objects,
  `TuberContainer` instances, and plain lists/dicts of objects.
-/

set_option maxHeartbeats 1000000

/-- A Python exception, reduced to its class name and its `str()`. -/
structure PyErr where
  kind : String
  msg : String
deriving Repr, DecidableEq

/-- Plain JSON/CBOR-style data: the universe of method arguments and
method return values in requests and responses. -/
inductive PyValue where
  | none
  | bool (b : Bool)
  | int (n : Int)
  | str (s : String)
  | bytes (bs : List Nat)
  | pylist (xs : List PyValue)
  | pydict (entries : List (String × PyValue))
deriving Repr

mutual

/-- Any Python object reachable from a `TuberRegistry`.  `val` holds a
plain scalar; `nlist`/`ndict` are plain lists/dicts whose elements may be
arbitrary objects; `mthd` is a callable attribute; `obj` is a class
instance (with class name, docstring, `__tuber_object__` flag, and its
attribute dictionary in `dir()` order); `cont` is a `TuberContainer`. -/
inductive PyNode where
  | val (v : PyValue)
  | nlist (xs : List PyNode)
  | ndict (entries : List (String × PyNode))
  | mthd (m : PyMethod)
  | obj (o : PyObj)
  | cont (data : TCData)

/-- A class instance: class name, `inspect.getdoc` result,
`__tuber_object__` marker, attributes in `dir()` order. -/
inductive PyObj where
  | mk (cls : String) (doc : Option String) (tuber : Bool)
       (attrs : List (String × PyNode))

/-- A callable: `__name__`, `inspect.getdoc` result, the printable
`inspect.signature` when that succeeds (`none` models `signature`
raising, the pybind case), and its behaviour: from positional and
keyword arguments to an outcome plus the warnings it emits. -/
inductive PyMethod where
  | mk (name : String) (doc : Option String) (sig : Option String)
       (run : List PyValue → List (String × PyValue) →
              (Except PyErr PyValue) × List String)

/-- The `__data` member of a `TuberContainer`: a list or dict of objects. -/
inductive TCData where
  | lst (xs : List PyNode)
  | dct (entries : List (String × PyNode))

end

namespace PyMethod

def name : PyMethod → String
  | .mk n _ _ _ => n

def doc : PyMethod → Option String
  | .mk _ d _ _ => d

def sig : PyMethod → Option String
  | .mk _ _ s _ => s

def run : PyMethod → List PyValue → List (String × PyValue) →
    (Except PyErr PyValue) × List String
  | .mk _ _ _ r => r

end PyMethod

mutual

/-- Embed plain data into the object universe (a Python value *is* an
object; the embedding maps plain lists/dicts to `nlist`/`ndict`). -/
def PyNode.ofValue : PyValue → PyNode
  | .pylist xs => .nlist (PyNode.ofValueList xs)
  | .pydict kvs => .ndict (PyNode.ofValueEntries kvs)
  | .none => .val .none
  | .bool b => .val (.bool b)
  | .int n => .val (.int n)
  | .str s => .val (.str s)
  | .bytes bs => .val (.bytes bs)

def PyNode.ofValueList : List PyValue → List PyNode
  | [] => []
  | x :: xs => PyNode.ofValue x :: PyNode.ofValueList xs

def PyNode.ofValueEntries : List (String × PyValue) → List (String × PyNode)
  | [] => []
  | (k, v) :: kvs => (k, PyNode.ofValue v) :: PyNode.ofValueEntries kvs

end

/-- Shorthand for a string node. -/
def PyNode.ofStr (s : String) : PyNode := .val (.str s)

/-- `str or None` as a node (descriptor `__doc__`/`__signature__` slots). -/
def PyNode.ofOptStr : Option String → PyNode
  | Option.none => .val .none
  | some s => .val (.str s)

/-- The Python type name of an object (used in error messages). -/
def PyNode.typeName : PyNode → String
  | .val .none => "NoneType"
  | .val (.bool _) => "bool"
  | .val (.int _) => "int"
  | .val (.str _) => "str"
  | .val (.bytes _) => "bytes"
  | .val (.pylist _) => "list"
  | .val (.pydict _) => "dict"
  | .nlist _ => "list"
  | .ndict _ => "dict"
  | .mthd _ => "method"
  | .obj (.mk cls _ _ _) => cls
  | .cont _ => "TuberContainer"

/-- `getattr(attr, "__tuber_object__", False)` truthiness. -/
def PyNode.isTuberObject : PyNode → Bool
  | .obj (.mk _ _ tuber _) => tuber
  | .cont _ => true
  | _ => false

/-- `callable(attr)`.  In the modelled object universe only methods are
callable (no modelled class defines `__call__`). -/
def PyNode.isCallable : PyNode → Bool
  | .mthd _ => true
  | _ => false

/-- Key membership in a Python dict (`k in d`). -/
def hasKey (k : String) (d : List (String × PyNode)) : Bool :=
  d.any (fun kv => kv.1 = k)

/-- `d[k]` lookup returning an `Option`. -/
def lookupKey (k : String) (d : List (String × PyNode)) : Option PyNode :=
  (d.find? (fun kv => kv.1 = k)).map Prod.snd

/-! ## Attribute and item access (`getattr`, `__getitem__`, `agetter`) -/

/-- Whitespace for Python `str.strip()` (the characters `strip` removes). -/
def pyIsSpace (c : Char) : Bool :=
  c = ' ' || c = '\t' || c = '\n' || c = '\r' || c = '\x0b' || c = '\x0c'

/-- Python `s.strip()`. -/
def pyStrip (s : String) : String :=
  ⟨((s.data.dropWhile pyIsSpace).reverse.dropWhile pyIsSpace).reverse⟩

/-- Split a character list at every occurrence of `c` (Python
`str.split` with a one-character separator; `"".split(c) == [""]`). -/
def splitCharList (c : Char) : List Char → List (List Char)
  | [] => [[]]
  | x :: xs =>
    match splitCharList c xs with
    | [] => [[]]
    | h :: t => if x = c then [] :: h :: t else (x :: h) :: t

/-- Python `s.split(c)` for a one-character separator. -/
def pySplitOnChar (c : Char) (s : String) : List String :=
  (splitCharList c s.data).map (fun l => ⟨l⟩)

/-- Python `c in s` for a single character. -/
def pyContainsChar (s : String) (c : Char) : Bool :=
  s.data.contains c

/-- Python `s.startswith(pre)`. -/
def pyStartsWith (s pre : String) : Bool :=
  pre.data.isPrefixOf s.data

/-- Quote a string the way Python reprs and error messages do. -/
def pyq (s : String) : String := "'" ++ s ++ "'"

/-- Docstring of `TuberContainer` (`inspect.getdoc` of an instance returns
the class docstring). -/
def tuberContainerDoc : String := "Container for grouping objects"

/-- The `tuber_call` bound method of a container, as seen by reflection.
Its runtime behaviour is exercised by no claim; reflection uses only its
name, docstring and signature. -/
def tuberCallMethod : PyMethod :=
  .mk "tuber_call"
    (some ("Call a method on every container item.\n\nReturns a list containing the result of the given method called on every\nitem in the container.  If the `keys` keyword is supplied, restrict the\nmethod call to only the given set of container items."))
    (some "(method, *args, **kwargs)")
    (fun _ _ => (Except.error { kind := "NotImplementedError", msg := "tuber_call behaviour not modelled" }, []))

/-- The `tuber_meta` bound method of a container, as seen by reflection
(same remark as `tuberCallMethod`; the function `TuberContainer.tuber_meta`
below models its behaviour where the reflector needs it). -/
def tuberMetaMethod : PyMethod :=
  .mk "tuber_meta"
    (some ("Return a dict with descriptions of all items in the collection, with\nsufficient information to reconstruct the collection on the client side."))
    (some "()")
    (fun _ _ => (Except.error { kind := "NotImplementedError", msg := "tuber_meta behaviour not modelled" }, []))

/-- `getattr(node, name)`.  Class instances look the name up in their
attribute dictionary; a `TuberContainer` finds its two class methods and
its name-mangled `__data` slot, and otherwise delegates to
`getattr(self.__data, name)` (builtin `list`/`dict` attributes are not
modelled, so delegation fails the way an unknown name does). -/
def pygetattr (node : PyNode) (name : String) : Except PyErr PyNode :=
  match node with
  | .obj (.mk cls _ _ attrs) =>
    match lookupKey name attrs with
    | some a => .ok a
    | Option.none =>
      .error { kind := "AttributeError",
               msg := pyq cls ++ " object has no attribute " ++ pyq name }
  | .cont data =>
    if name = "tuber_call" then .ok (.mthd tuberCallMethod)
    else if name = "tuber_meta" then .ok (.mthd tuberMetaMethod)
    else
      .error { kind := "AttributeError",
               msg := pyq (match data with | .lst _ => "list" | .dct _ => "dict")
                      ++ " object has no attribute " ++ pyq name }
  | other =>
    .error { kind := "AttributeError",
             msg := pyq other.typeName ++ " object has no attribute " ++ pyq name }

/-- A container index: an integer or a string. -/
inductive PKey where
  | i (n : Int)
  | s (s : String)
deriving Repr, DecidableEq

/-- Python `repr` of an index. -/
def PKey.repr : PKey → String
  | .i n => toString n
  | .s t => pyq t

/-- Python list indexing with negative-index wrap-around. -/
def pyListGet {α : Type} (xs : List α) (n : Int) : Option α :=
  if 0 ≤ n ∧ n < xs.length then xs.get? n.toNat
  else if -(xs.length : Int) ≤ n ∧ n < 0 then xs.get? (n + xs.length).toNat
  else Option.none

/-- `node[key]` on the modelled object shapes. -/
def pygetitem (node : PyNode) (key : PKey) : Except PyErr PyNode :=
  match node, key with
  | .nlist xs, .i n =>
    match pyListGet xs n with
    | some x => .ok x
    | Option.none => .error { kind := "IndexError", msg := "list index out of range" }
  | .nlist _, .s _ =>
    .error { kind := "TypeError", msg := "list indices must be integers or slices, not str" }
  | .ndict kvs, .s k =>
    match lookupKey k kvs with
    | some x => .ok x
    | Option.none => .error { kind := "KeyError", msg := pyq k }
  | .ndict _, .i n =>
    .error { kind := "KeyError", msg := toString n }
  | .cont (.lst xs), .i n =>
    match pyListGet xs n with
    | some x => .ok x
    | Option.none => .error { kind := "IndexError", msg := "list index out of range" }
  | .cont (.lst _), .s _ =>
    .error { kind := "TypeError", msg := "list indices must be integers or slices, not str" }
  | .cont (.dct kvs), .s k =>
    match lookupKey k kvs with
    | some x => .ok x
    | Option.none => .error { kind := "KeyError", msg := pyq k }
  | .cont (.dct _), .i n =>
    .error { kind := "KeyError", msg := toString n }
  | .val (.pylist xs), .i n =>
    match pyListGet xs n with
    | some x => .ok (.ofValue x)
    | Option.none => .error { kind := "IndexError", msg := "list index out of range" }
  | .val (.pylist _), .s _ =>
    .error { kind := "TypeError", msg := "list indices must be integers or slices, not str" }
  | .val (.pydict kvs), .s k =>
    match (kvs.find? (fun kv => kv.1 = k)).map Prod.snd with
    | some x => .ok (.ofValue x)
    | Option.none => .error { kind := "KeyError", msg := pyq k }
  | .val (.pydict _), .i n =>
    .error { kind := "KeyError", msg := toString n }
  | other, _ =>
    .error { kind := "TypeError", msg := pyq other.typeName ++ " object is not subscriptable" }

/-- An element of an object path: a bare attribute name, or an attribute
name followed by one or more container indices (`(attr, idx1, idx2, …)`). -/
inductive PathElem where
  | str (s : String)
  | tup (attr : String) (idxs : List PKey)
deriving Repr, DecidableEq

/-- An object path: a simple string name or a list of path elements. -/
inductive ObjPath where
  | str (s : String)
  | lst (elems : List PathElem)
deriving Repr, DecidableEq

/-- `agetter(obj, attr, *items)`: fetch the attribute, then index into it
with each subsequent index. -/
def agetter (node : PyNode) (attr : String) (items : List PKey) : Except PyErr PyNode := do
  items.foldlM pygetitem (← pygetattr node attr)

/-! ## The registry and its navigator (`TuberRegistry.__getitem__`) -/

/-- A `TuberRegistry` is its `__dict__`: named root objects in insertion
order. -/
abbrev Registry := List (String × PyNode)

/-- The registry instance seen as an object (`getattr(self, …)` inside
`TuberRegistry` resolves against its `__dict__`). -/
def regNode (reg : Registry) : PyNode :=
  .obj (.mk "TuberRegistry" (some "Registry class.") false reg)

/-- Python `repr` of a path element as it appears in the original
request value (`str` of a list reprs its elements). -/
def PathElem.reprOrig : PathElem → String
  | .str s => pyq s
  | .tup attr idxs =>
    "(" ++ pyq attr ++
      (if idxs.isEmpty then ",)"
       else ", " ++ String.intercalate ", " (idxs.map PKey.repr) ++ ")")

/-- Python `repr` of a path element after `__getitem__` normalises bare
strings to one-element lists (`[x] if isinstance(x, str) else x`). -/
def PathElem.reprNorm : PathElem → String
  | .str s => "[" ++ pyq s ++ "]"
  | .tup attr idxs =>
    "(" ++ pyq attr ++
      (if idxs.isEmpty then ",)"
       else ", " ++ String.intercalate ", " (idxs.map PKey.repr) ++ ")")

/-- `str(objname)` for the original request value (a bare string prints
without quotes; a list prints as its repr). -/
def ObjPath.pystr : ObjPath → String
  | .str s => s
  | .lst elems => "[" ++ String.intercalate ", " (elems.map PathElem.reprOrig) ++ "]"

/-- `str(objname)` where `objname` may be `None` ("object" key absent). -/
def objnamePystr : Option ObjPath → String
  | Option.none => "None"
  | some p => p.pystr

/-- Repr of the normalised element list built inside `__getitem__`. -/
def normPathRepr (elems : List PathElem) : String :=
  "[" ++ String.intercalate ", " (elems.map PathElem.reprNorm) ++ "]"

/-- Evaluate the normalised path by `functools.reduce(lambda obj, x:
agetter(obj, *x), objname, self)`. -/
def evalPath (reg : Registry) (elems : List PathElem) : Except PyErr PyNode :=
  elems.foldlM
    (fun cur e =>
      match e with
      | .str s => agetter cur s []
      | .tup attr idxs => agetter cur attr idxs)
    (regNode reg)

/-- `TuberRegistry.__getitem__`.  A bare string is a `getattr` on the
registry; a list is normalised and folded through `agetter`; any
exception is re-raised with the same class and the original message
suffixed with the invalid object name.  `none` models a request whose
"object" key is absent (`registry[None]`): iterating `None` during
normalisation raises `TypeError`. -/
def TuberRegistry.getitem (reg : Registry) (objname : Option ObjPath) :
    Except PyErr PyNode :=
  match objname with
  | Option.none =>
    .error { kind := "TypeError",
             msg := "'NoneType' object is not iterable (Invalid object name 'None')" }
  | some (.str s) =>
    match pygetattr (regNode reg) s with
    | .ok n => .ok n
    | .error e =>
      .error { kind := e.kind,
               msg := e.msg ++ " (Invalid object name " ++ pyq s ++ ")" }
  | some (.lst elems) =>
    match evalPath reg elems with
    | .ok n => .ok n
    | .error e =>
      .error { kind := e.kind,
               msg := e.msg ++ " (Invalid object name " ++ pyq (normPathRepr elems) ++ ")" }

/-! ## The reflector (`resolve_method`, `resolve_object`, `tuber_meta`) -/

/-- Python `s.split(sep, 1)[0]` and the joined remainder, for a
one-character separator known to occur (`split(sep, 1)` keeps everything
after the first hit). -/
def splitOnce (sep : Char) (s : String) : String × String :=
  let parts := pySplitOnChar sep s
  (parts.headD "", String.intercalate sep.toString parts.tail)

/-- `resolve_method`: a method descriptor.  When `inspect.signature`
fails (`sig = none`), pybind-style docstrings that begin with
`name(…` are split into a signature line and the remaining doc. -/
def resolve_method (m : PyMethod) : List (String × PyNode) :=
  let doc := m.doc
  let sig := m.sig
  match sig with
  | some s => [("__doc__", .ofOptStr doc), ("__signature__", .ofStr s)]
  | Option.none =>
    match doc with
    | some d =>
      if d ≠ "" ∧ pyStartsWith d (m.name ++ "(") then
        let (sigLine, rest) :=
          if pyContainsChar d '\n' then
            let p := splitOnce '\n' d
            (p.1, some (pyStrip p.2))
          else (d, Option.none)
        let sigTail := "(" ++ String.intercalate "(" ((pySplitOnChar '(' sigLine).tail)
        [("__doc__", .ofOptStr rest), ("__signature__", .ofStr sigTail)]
      else [("__doc__", .ofStr d), ("__signature__", .val .none)]
    | Option.none => [("__doc__", .val .none), ("__signature__", .val .none)]

/-- `resolve_method` on an attribute already known to be callable. -/
def resolveMethodNode : PyNode → List (String × PyNode)
  | .mthd m => resolve_method m
  | _ => []

/-- The attribute filter of `resolve_object`: skip dunder and
class-name-mangled names. -/
def attrFiltered (cls d : String) : Bool :=
  pyStartsWith d "__" || pyStartsWith d ("_" ++ cls ++ "__")

/-- Python dict key assignment (`d[k] = v`, also `setattr` on a record):
replace an existing key in place, append a fresh one. -/
def setKey (k : String) (v : PyNode) (d : List (String × PyNode)) :
    List (String × PyNode) :=
  if hasKey k d then d.map (fun kv => if kv.1 = k then (k, v) else kv)
  else d ++ [(k, v)]

/-- Python `d.update(other)`: assign every entry of `other` into `d` in
order (replacing in place or appending; never removing). -/
def dictUpdate (d other : List (String × PyNode)) : List (String × PyNode) :=
  other.foldl (fun acc kv => setKey kv.1 kv.2 acc) d

mutual

/-- `resolve_object`: descriptor of an object node.  The loop over
`dir(obj)` is compiled per node kind: class instances iterate their
attribute dictionary; a `TuberContainer` sees `_TuberContainer__data`
(filtered by the mangled-name test), `tuber_call` and `tuber_meta`; plain
data and callables expose no modelled non-dunder attributes.  In
recursive mode `if hasattr(obj, "tuber_meta"): out.update(obj.tuber_meta())`
merges the object's custom metadata into the descriptor, so the recursive
reflector can raise (hence the `Except` result; simple mode returns before
that line and never fails): a non-callable `tuber_meta` attribute raises
`TypeError` when called, an exception from the call propagates, and
`dict.update` on a non-dict return value raises `TypeError` (Python's
`update` also accepts iterables of key/value pairs, which no object in
this program produces and which are not modelled).  Warnings emitted
during the call go to the ambient warning machinery — `describe` installs
no capture scope, so nothing records them. -/
def resolve_object (node : PyNode) (recursive : Bool) :
    Except PyErr (List (String × PyNode)) :=
  match node with
  | .obj (.mk cls doc _ attrs) =>
    if recursive then
      match classifyRec cls attrs with
      | .error e => .error e
      | .ok c =>
        let out := [("__doc__", PyNode.ofOptStr doc), ("methods", PyNode.ndict c.2.1),
                    ("properties", PyNode.ndict c.2.2), ("objects", PyNode.ndict c.1)]
        match lookupKey "tuber_meta" attrs with
        | Option.none => .ok out
        | some (.mthd m) =>
          match (m.run [] []).1 with
          | .ok (.pydict kvs) => .ok (dictUpdate out (PyNode.ofValueEntries kvs))
          | .ok v =>
            .error { kind := "TypeError",
                     msg := pyq (PyNode.ofValue v).typeName ++ " object is not iterable" }
          | .error e => .error e
        | some a =>
          .error { kind := "TypeError",
                   msg := pyq a.typeName ++ " object is not callable" }
    else
      let visible := attrs.filter (fun kv => !(attrFiltered cls kv.1))
      .ok [("__doc__", .ofOptStr doc),
           ("methods", .nlist ((visible.filter
              (fun kv => !(kv.2.isTuberObject) && kv.2.isCallable)).map
                (fun kv => PyNode.ofStr kv.1))),
           ("properties", .nlist ((visible.filter
              (fun kv => !(kv.2.isTuberObject) && !(kv.2.isCallable))).map
                (fun kv => PyNode.ofStr kv.1)))]
  | .cont data =>
    if recursive then
      match TuberContainer.tuber_meta data with
      | .error e => .error e
      | .ok meta =>
        .ok (dictUpdate
          [("__doc__", PyNode.ofStr tuberContainerDoc),
           ("methods", PyNode.ndict [("tuber_call", .ndict (resolve_method tuberCallMethod)),
                                     ("tuber_meta", .ndict (resolve_method tuberMetaMethod))]),
           ("properties", PyNode.ndict []),
           ("objects", PyNode.ndict [])] meta)
    else
      .ok [("__doc__", .ofStr tuberContainerDoc),
           ("methods", .nlist [.ofStr "tuber_call", .ofStr "tuber_meta"]),
           ("properties", .nlist [])]
  | _ =>
    if recursive then
      .ok [("__doc__", .val .none), ("methods", .ndict []),
           ("properties", .ndict []), ("objects", .ndict [])]
    else
      .ok [("__doc__", .val .none), ("methods", .nlist []),
           ("properties", .nlist [])]

/-- The classification loop of `resolve_object` in recursive mode:
returns `(objects, methods, properties)` in attribute order; an exception
raised while resolving a nested tuber object propagates at the first
offending attribute. -/
def classifyRec (cls : String) :
    List (String × PyNode) →
    Except PyErr
      ((List (String × PyNode)) × (List (String × PyNode)) × (List (String × PyNode)))
  | [] => .ok ([], [], [])
  | (d, a) :: rest =>
    if attrFiltered cls d then classifyRec cls rest
    else if a.isTuberObject then
      match resolve_object a true with
      | .error e => .error e
      | .ok dd =>
        match classifyRec cls rest with
        | .error e => .error e
        | .ok r => .ok ((d, .ndict dd) :: r.1, r.2.1, r.2.2)
    else if a.isCallable then
      match classifyRec cls rest with
      | .error e => .error e
      | .ok r => .ok (r.1, (d, .ndict (resolveMethodNode a)) :: r.2.1, r.2.2)
    else
      match classifyRec cls rest with
      | .error e => .error e
      | .ok r => .ok (r.1, r.2.1, (d, a) :: r.2.2)

/-- `TuberContainer.tuber_meta`: full descriptors of every item under
`values`, plus the key list under `keys` for dict containers; an
exception from resolving an item propagates. -/
def TuberContainer.tuber_meta : TCData → Except PyErr (List (String × PyNode))
  | .lst xs =>
    match resolveItems xs with
    | .error e => .error e
    | .ok vs => .ok [("values", .nlist vs)]
  | .dct kvs =>
    match resolveItemsPairs kvs with
    | .error e => .error e
    | .ok vs =>
      .ok [("values", .nlist vs),
           ("keys", .nlist (kvs.map (fun kv => PyNode.ofStr kv.1)))]

/-- `[resolve_object(v) for v in values]` over a list of items. -/
def resolveItems : List PyNode → Except PyErr (List PyNode)
  | [] => .ok []
  | x :: xs =>
    match resolve_object x true with
    | .error e => .error e
    | .ok d =>
      match resolveItems xs with
      | .error e => .error e
      | .ok ds => .ok (.ndict d :: ds)

/-- `[resolve_object(v) for v in values]` over dict values. -/
def resolveItemsPairs : List (String × PyNode) → Except PyErr (List PyNode)
  | [] => .ok []
  | kv :: kvs =>
    match resolve_object kv.2 true with
    | .error e => .error e
    | .ok d =>
      match resolveItemsPairs kvs with
      | .error e => .error e
      | .ok ds => .ok (.ndict d :: ds)

end

/-- The registry-metadata comprehension of `describe` with `resolve` set:
`{obj: resolve_object(registry[obj]) for obj in registry}`; an exception
from any entry propagates. -/
def resolveRegistryObjects : Registry → Except PyErr (List (String × PyNode))
  | [] => .ok []
  | (k, v) :: rest =>
    match resolve_object v true with
    | .error e => .error e
    | .ok d =>
      match resolveRegistryObjects rest with
      | .error e => .error e
      | .ok ds => .ok ((k, .ndict d) :: ds)

/-! ## Envelopes and the dispatcher (`result_response`, `error_response`,
`describe`, `invoke`) -/

/-- `result_response`: the `{"result": …}` envelope.  Call sites pass
either the single positional argument or the keyword dictionary, matching
`{"result": kwargs or arg}`. -/
def result_response (v : PyNode) : List (String × PyNode) := [("result", v)]

/-- Argument of `error_response`: an exception or a plain string. -/
inductive ErrMsg where
  | exc (e : PyErr)
  | str (s : String)
deriving Repr

/-- `error_response`: exceptions are rendered as `"<Kind>: <text>"`. -/
def error_response : ErrMsg → List (String × PyNode)
  | .exc e => [("error", .ndict [("message", .ofStr (e.kind ++ ": " ++ e.msg))])]
  | .str s => [("error", .ndict [("message", .ofStr s)])]

/-- A request record: a mapping with the optional keys of the request
schema.  `prop` models the "property" key; an absent optional key is
`none`, and `resolve` defaults to `False` the way
`request["resolve"] if "resolve" in request else False` does. -/
structure Request where
  object : Option ObjPath := Option.none
  method : Option String := Option.none
  prop : Option String := Option.none
  args : Option PyValue := Option.none
  kwargs : Option PyValue := Option.none
  resolve : Bool := false

/-- Python truthiness of the "object" value (`None`, `""` and `[]` are
falsy). -/
def truthyPath : Option ObjPath → Bool
  | Option.none => false
  | some (.str s) => s ≠ ""
  | some (.lst es) => !es.isEmpty

/-- Python truthiness of an optional string. -/
def truthyStr : Option String → Bool
  | Option.none => false
  | some s => s ≠ ""

mutual

/-- Python `repr` of plain data (used only for the interpolated request
in the unreachable `Invalid request` message; strings are assumed to
contain no quote characters, and `bytes` reprs are abbreviated). -/
def pyValueRepr : PyValue → String
  | .none => "None"
  | .bool b => if b then "True" else "False"
  | .int n => toString n
  | .str s => pyq s
  | .bytes _ => "b" ++ pyq ""
  | .pylist xs => "[" ++ String.intercalate ", " (pyValueReprList xs) ++ "]"
  | .pydict kvs => "\x7b" ++ String.intercalate ", " (pyValueReprEntries kvs) ++ "\x7d"

def pyValueReprList : List PyValue → List String
  | [] => []
  | x :: xs => pyValueRepr x :: pyValueReprList xs

def pyValueReprEntries : List (String × PyValue) → List String
  | [] => []
  | (k, v) :: kvs => (pyq k ++ ": " ++ pyValueRepr v) :: pyValueReprEntries kvs

end

/-- Python `repr` of the original "object" value. -/
def objnameRepr : Option ObjPath → String
  | Option.none => "None"
  | some (.str s) => pyq s
  | some (.lst elems) =>
    "[" ++ String.intercalate ", " (elems.map PathElem.reprOrig) ++ "]"

/-- Python `repr` of a request record (present keys in field order). -/
def reqPystr (req : Request) : String :=
  let parts :=
    (match req.object with
     | some p => ["'object': " ++ objnameRepr (some p)] | Option.none => []) ++
    (match req.method with
     | some m => ["'method': " ++ pyq m] | Option.none => []) ++
    (match req.prop with
     | some p => ["'property': " ++ pyq p] | Option.none => []) ++
    (match req.args with
     | some a => ["'args': " ++ pyValueRepr a] | Option.none => []) ++
    (match req.kwargs with
     | some k => ["'kwargs': " ++ pyValueRepr k] | Option.none => [])
  "\x7b" ++ String.intercalate ", " parts ++ "\x7d"

/-- `describe`: the slow path, handling registry metadata, object
descriptors and property/method descriptors.  Exceptions propagate to
`invoke`, which shapes them into error envelopes. -/
def describe (reg : Registry) (req : Request) : Except PyErr (List (String × PyNode)) :=
  let objname := req.object
  let methodname := req.method
  let propertyname := req.prop
  let resolve := req.resolve
  if !truthyPath objname && !truthyStr methodname && !truthyStr propertyname then
    if resolve then
      match resolveRegistryObjects reg with
      | .error e => .error e
      | .ok objs => .ok (result_response (.ndict [("objects", .ndict objs)]))
    else
      .ok (result_response
        (.ndict [("objects", .nlist (reg.map (fun kv => PyNode.ofStr kv.1)))]))
  else do
    let obj ← TuberRegistry.getitem reg objname
    if !truthyStr methodname && !truthyStr propertyname then
      let d ← resolve_object obj resolve
      return result_response (.ndict d)
    if truthyStr propertyname then
      let p := propertyname.getD ""
      match pygetattr obj p with
      | .error _ =>
        throw { kind := "AttributeError",
                msg := pyq (objnamePystr objname) ++ " object has no attribute " ++ pyq p }
      | .ok attr =>
        if attr.isTuberObject then
          let d ← resolve_object attr resolve
          return result_response (.ndict d)
        else if !attr.isCallable then
          return result_response attr
        else
          return result_response (.ndict (resolveMethodNode attr))
    else
      throw { kind := "ValueError", msg := "Invalid request (" ++ reqPystr req ++ ")" }

/-- Result of the `try` block of `invoke`: a finished describe response,
or a method object with validated arguments, ready to call. -/
inductive InvokeStage where
  | done (resp : List (String × PyNode))
  | call (m : PyNode) (args : List PyValue) (kwargs : List (String × PyValue))

/-- The `try` block of `invoke`: route to `describe` unless both
"object" and "method" are present (key membership, not truthiness);
otherwise resolve the object and method and validate `args`/`kwargs`. -/
def invokeTry (reg : Registry) (req : Request) : Except PyErr InvokeStage :=
  if !(req.object.isSome && req.method.isSome) then
    (describe reg req).map .done
  else do
    let obj ← TuberRegistry.getitem reg req.object
    let methodname := req.method.getD ""
    let m ← pygetattr obj methodname
    let args ← match req.args with
      | Option.none => Except.ok []
      | some (.pylist xs) => Except.ok xs
      | some _ =>
        Except.error { kind := "TypeError",
                       msg := "Argument 'args' for method " ++ objnamePystr req.object
                              ++ "." ++ methodname ++ " must be a list." }
    let kwargs ← match req.kwargs with
      | Option.none => Except.ok []
      | some (.pydict kvs) => Except.ok kvs
      | some _ =>
        Except.error { kind := "TypeError",
                       msg := "Argument 'kwargs' for method " ++ objnamePystr req.object
                              ++ "." ++ methodname ++ " must be a dict." }
    return .call m args kwargs

/-- `method(*args, **kwargs)` inside the warning-capture scope: calling a
non-callable raises `TypeError`; a method runs and reports the warnings
it emitted. -/
def runCallable (m : PyNode) (args : List PyValue)
    (kwargs : List (String × PyValue)) : (Except PyErr PyValue) × List String :=
  match m with
  | .mthd mm => mm.run args kwargs
  | other =>
    (.error { kind := "TypeError", msg := pyq other.typeName ++ " object is not callable" }, [])

/-- `invoke`: the dispatcher.  Never raises: every exception is shaped
into an `{error}` envelope, and warnings captured around the method call
are attached to either envelope shape. -/
def invoke (reg : Registry) (req : Request) : List (String × PyNode) :=
  match invokeTry reg req with
  | .error e => error_response (.exc e)
  | .ok (.done resp) => resp
  | .ok (.call m args kwargs) =>
    let r := runCallable m args kwargs
    let response :=
      match r.1 with
      | .ok v => result_response (.ofValue v)
      | .error e => error_response (.exc e)
    if r.2.length ≠ 0 then response ++ [("warnings", .nlist (r.2.map PyNode.ofStr))]
    else response

/-- The warnings captured during one `invoke` (empty when no method ran). -/
def invokeEmissions (reg : Registry) (req : Request) : List String :=
  match invokeTry reg req with
  | .ok (.call m args kwargs) => (runCallable m args kwargs).2
  | _ => []

/-! ## The request handler (`RequestHandler.handle`) -/

/-- The synthetic envelope used for items after a fail-fast bail-out. -/
def precedingError : List (String × PyNode) :=
  error_response (.str "Something went wrong in a preceding call")

/-- The request-sequence loop of `handle` (lines 513-526 of
`tuber/server.py`): `bail` is the `early_bail` flag. -/
def handleSequence (reg : Registry) (continueOnError : Bool) (bail : Bool) :
    List Request → List (List (String × PyNode))
  | [] => []
  | r :: rs =>
    if bail then precedingError :: handleSequence reg continueOnError true rs
    else
      let res := invoke reg r
      res :: handleSequence reg continueOnError (hasKey "error" res && !continueOnError) rs

/-- The comma-split, stripped `X-Tuber-Options` tokens. -/
def xoptsOf (headers : List (String × String)) : List String :=
  (pySplitOnChar ',' ((headers.lookup "X-Tuber-Options").getD "")).map pyStrip

/-- The comma-split, stripped `Accept` tokens. -/
def acceptTypesOf (accept : String) : List String :=
  (pySplitOnChar ',' accept).map pyStrip

/-- Response-codec selection from an `Accept` header value (lines
484-495): wildcard tokens echo the request format, otherwise the first
registered token wins, otherwise `ValueError`. -/
def responseFormatOf (codecs : List String) (request_format accept : String) :
    Except PyErr String :=
  let accept_types := acceptTypesOf accept
  if accept_types.contains "*/*" || accept_types.contains "application/*" then
    .ok request_format
  else
    match accept_types.find? (fun t => codecs.contains t) with
    | some t => .ok t
    | Option.none =>
      .error { kind := "ValueError",
               msg := "Not able to encode any media type matching " ++ accept }

/-- A `RequestHandler`: its registry and the registered codec media
types (the byte-level `encode`/`decode` functions of the codecs are
abstracted away; `handle` below returns the data passed to `encode`).
Validation (`validate=False`, the default) is a no-op and not modelled. -/
structure RequestHandler where
  registry : Registry
  codecs : List String
  default_format : String := "application/json"

/-- The decoded request body: a single mapping, an ordered sequence of
mappings, or something of another type (carrying its type name). -/
inductive Body where
  | single (r : Request)
  | batch (rs : List Request)
  | other (typeName : String)

/-- `Content-Type` selection for the request codec (line 477). -/
def requestFormatOf (h : RequestHandler) (headers : List (String × String)) : String :=
  (headers.lookup "Content-Type").getD h.default_format

/-- The body of `handle`'s `try` block, compiled so that an error carries
the value `response_format` holds at the raise site (the `encode` lambda
reads `response_format` late, at call time). -/
def RequestHandler.handleCore (h : RequestHandler)
    (decode : String → String → Except PyErr Body) (raw : String)
    (headers : List (String × String)) : Except (PyErr × String) (String × PyNode) :=
  let content_type := requestFormatOf h headers
  if !h.codecs.contains content_type then
    .error ({ kind := "ValueError",
              msg := "Not able to decode media type " ++ content_type },
            h.default_format)
  else
    let request_format := content_type
    let rfmt : Except (PyErr × String) String :=
      match headers.lookup "Accept" with
      | Option.none => .ok request_format
      | some accept =>
        match responseFormatOf h.codecs request_format accept with
        | .ok t => .ok t
        | .error e => .error (e, request_format)
    match rfmt with
    | .error p => .error p
    | .ok response_format =>
      match decode request_format raw with
      | .error e => .error (e, response_format)
      | .ok (.single r) => .ok (response_format, .ndict (invoke h.registry r))
      | .ok (.batch rs) =>
        let continue_on_error := (xoptsOf headers).contains "continue-on-error"
        .ok (response_format,
             .nlist ((handleSequence h.registry continue_on_error false rs).map .ndict))
      | .ok (.other _) =>
        .error ({ kind := "TypeError", msg := "Unexpected type in request" },
                response_format)

/-- `RequestHandler.handle`, parametrised over the codec `decode`
function: returns the response format and the data handed to the
response codec's `encode` (exceptions anywhere in the `try` block become
a single error envelope encoded with the current response format). -/
def RequestHandler.handle (h : RequestHandler)
    (decode : String → String → Except PyErr Body) (raw : String)
    (headers : List (String × String)) : String × PyNode :=
  match h.handleCore decode raw headers with
  | .ok out => out
  | .error (e, fmt) => (fmt, .ndict (error_response (.exc e)))

/-! ## Warning capture as explicit state (`warnings.catch_warnings`) -/

/-- `invoke` with the ambient warning-recording state made explicit: the
`with warnings.catch_warnings(record=True)` scope saves the ambient
state, installs a fresh recording list that the method call appends to,
reads it back as `wlist`, and restores the saved state on exit. -/
def invokeSt (reg : Registry) (req : Request) (st : List String) :
    (List (String × PyNode)) × List String :=
  match invokeTry reg req with
  | .error e => (error_response (.exc e), st)
  | .ok (.done resp) => (resp, st)
  | .ok (.call m args kwargs) =>
    let saved := st
    let fresh : List String := []
    let r := runCallable m args kwargs
    let wlist := fresh ++ r.2
    let response :=
      match r.1 with
      | .ok v => result_response (.ofValue v)
      | .error e => error_response (.exc e)
    let response :=
      if wlist.length ≠ 0 then response ++ [("warnings", .nlist (wlist.map PyNode.ofStr))]
      else response
    (response, saved)

/-- The request-sequence loop threading the ambient warning state. -/
def handleSequenceSt (reg : Registry) (continueOnError : Bool) (bail : Bool)
    (st : List String) : List Request → (List (List (String × PyNode))) × List String
  | [] => ([], st)
  | r :: rs =>
    if bail then
      let t := handleSequenceSt reg continueOnError true st rs
      (precedingError :: t.1, t.2)
    else
      let p := invokeSt reg r st
      let t := handleSequenceSt reg continueOnError (hasKey "error" p.1 && !continueOnError) p.2 rs
      (p.1 :: t.1, t.2)

/-! ## `TuberContainer.__init__` -/

/-- `TuberContainer.__init__`: a non-empty list or dict is stored as the
container data (`self.__data = data`); empty ones raise `ValueError`,
anything else raises `TypeError`.  Plain value lists/dicts are lists too
(`isinstance(data, list)`), stored through the value embedding. -/
def TuberContainer.init (data : PyNode) : Except PyErr TCData :=
  match data with
  | .nlist xs =>
    if xs.isEmpty then .error { kind := "ValueError", msg := "Empty list container" }
    else .ok (.lst xs)
  | .val (.pylist xs) =>
    if xs.isEmpty then .error { kind := "ValueError", msg := "Empty list container" }
    else .ok (.lst (PyNode.ofValueList xs))
  | .ndict kvs =>
    if kvs.isEmpty then .error { kind := "ValueError", msg := "Empty dict container" }
    else .ok (.dct kvs)
  | .val (.pydict kvs) =>
    if kvs.isEmpty then .error { kind := "ValueError", msg := "Empty dict container" }
    else .ok (.dct (PyNode.ofValueEntries kvs))
  | _ => .error { kind := "TypeError", msg := "Invalid container type" }

/-! ## Client-side container re-inflation (`SimpleTuberObject._resolve_meta`)

`setattr` on a dotted-accessor record is the `setKey` assignment defined
with the server-side dictionary operations above. -/

/-- The item loop of `_resolve_meta` (client.py lines 558-565): each item
descriptor gets the shared `item_doc` as its `__doc__` and the shared
`item_methods` as its `methods` before the item proxy is built. -/
def reinflateItems (item_doc item_methods : PyNode)
    (metaitems : List (List (String × PyNode))) : List (List (String × PyNode)) :=
  metaitems.map (fun d => setKey "methods" item_methods (setKey "__doc__" item_doc d))

/-! ## CBOR typed arrays (`cbor_tag_decode`, py/tuber/codecs.py) -/

/-- A decoded numpy array: dtype kind (`u`/`i`/`f`), element size in
bytes, endianness, shape, storage order (`true` = row-major) and the raw
underlying bytes. -/
structure NDArray where
  kind : Char
  itemsize : Nat
  little : Bool
  shape : List Nat
  cOrder : Bool
  data : List Nat
deriving Repr, DecidableEq

/-- A decoded CBOR item as the tag hook sees `tag.value`. -/
inductive CborItem where
  | bytes (bs : List Nat)
  | int (n : Int)
  | str (s : String)
  | arr (xs : List CborItem)
  | ndarray (a : NDArray)
deriving Repr

/-- The element size the decoder computes: `1 << (tag & 0x3)`, doubled
for float tags (`element_size <<= 1`). -/
def typedArrayElementSize (t : Nat) : Nat :=
  let es := 1 <<< (t &&& 0x3)
  if t &&& 0x10 != 0 then es <<< 1 else es

/-- `isinstance(x, collections.abc.Sequence)`: lists, byte strings and
text strings are sequences; numbers and numpy arrays are not. -/
def CborItem.isSequence : CborItem → Bool
  | .arr _ => true
  | .bytes _ => true
  | .str _ => true
  | _ => false

/-- The shape argument handed to `ndarray.reshape`: a sequence of
non-negative integers (numpy's `-1` inference is not modelled; no claim
exercises it). -/
def asShape : CborItem → Except PyErr (List Nat)
  | .arr xs =>
    xs.foldrM
      (fun x acc =>
        match x with
        | .int n =>
          if 0 ≤ n then .ok (n.toNat :: acc)
          else .error { kind := "ValueError", msg := "negative dimensions are not allowed" }
        | _ => .error { kind := "TypeError", msg := "expected a sequence of integers" })
      []
  | _ => .error { kind := "TypeError", msg := "expected a sequence of integers" }

/-- `cbor_tag_decode` (with `have_numpy`): tags 64-87 except 76 decode a
byte-string payload into a flat typed array; tags 40/1040 reshape a typed
array with a shape vector; other tags return `None` (modelled `ok none`,
handing the tag back to the decoder). -/
def cbor_tag_decode (t : Nat) (value : CborItem) : Except PyErr (Option NDArray) :=
  if 64 ≤ t && t ≤ 87 && t != 76 then
    match value with
    | .bytes bs =>
      let is_float := t &&& 0x10 != 0
      let is_signed := t &&& 0x8 != 0
      let is_le := t &&& 0x4 != 0
      let element_size := typedArrayElementSize t
      let dt := (if is_le then "<" else ">")
                ++ (if is_float then "f" else if is_signed then "i" else "u")
                ++ toString element_size
      if bs.length % element_size != 0 then
        .error { kind := "CBORDecodeValueError",
                 msg := "Invalid data size (" ++ toString bs.length
                        ++ ") for typed array with tag " ++ toString t
                        ++ ", interpreted as " ++ dt }
      else
        .ok (some { kind := if is_float then 'f' else if is_signed then 'i' else 'u',
                    itemsize := element_size, little := is_le,
                    shape := [bs.length / element_size], cOrder := true, data := bs })
    | _ =>
      -- `len(tag.value)` / the byte splat fail on non-byte payloads
      .error { kind := "TypeError", msg := "a bytes-like object is required" }
  else if t = 40 || t = 1040 then
    if !value.isSequence then
      .error { kind := "CBORDecodeValueError",
               msg := "Invalid raw data for multi-dimensional array tag ("
                      ++ toString t ++ ")" }
    else
      match value with
      | .arr [shapeItem, dataItem] =>
        match dataItem with
        | .ndarray a =>
          if !shapeItem.isSequence then
            .error { kind := "CBORDecodeValueError",
                     msg := "Invalid raw data for multi-dimensional array tag ("
                            ++ toString t ++ ")" }
          else
            match asShape shapeItem with
            | .error e => .error e
            | .ok shape =>
              if shape.prod ≠ a.shape.prod then
                .error { kind := "ValueError",
                         msg := "cannot reshape array of size " ++ toString a.shape.prod
                                ++ " into the requested shape" }
              else .ok (some { a with shape := shape, cOrder := t = 40 })
        | _ =>
          .error { kind := "CBORDecodeValueError",
                   msg := "Invalid raw data for multi-dimensional array tag ("
                          ++ toString t ++ ")" }
      | .arr _ =>
        .error { kind := "CBORDecodeValueError",
                 msg := "Invalid raw array length for multi-dimensional array tag ("
                        ++ toString t ++ ")" }
      | other =>
        -- a bytes/str sequence of the right length has non-sequence entries
        if (match other with
            | .bytes bs => bs.length == 2
            | .str s => s.length == 2
            | _ => false) then
          .error { kind := "CBORDecodeValueError",
                   msg := "Invalid raw data for multi-dimensional array tag ("
                          ++ toString t ++ ")" }
        else
          .error { kind := "CBORDecodeValueError",
                   msg := "Invalid raw array length for multi-dimensional array tag ("
                          ++ toString t ++ ")" }
  else .ok Option.none

/-! ## JSON byte-sequence wrapping (`wrap_bytes_for_json`, `decode_json`) -/

/-- `wrap_bytes_for_json`: byte sequences become
`{"bytes": [b0, b1, …]}`; anything else passes through. -/
def wrap_bytes_for_json : PyValue → PyValue
  | .bytes bs => .pydict [("bytes", .pylist (bs.map (fun b => PyValue.int (Int.ofNat b))))]
  | v => v

/-- A parsed JSON value, before object hooks run. -/
inductive JVal where
  | null
  | jbool (b : Bool)
  | num (n : Int)
  | str (s : String)
  | arr (xs : List JVal)
  | obj (entries : List (String × JVal))
deriving Repr

/-- A value produced by `decode_json`: JSON data in which every object
has become either a raw byte sequence or a dotted-accessor
`TuberResult` record. -/
inductive DVal where
  | null
  | dbool (b : Bool)
  | num (n : Int)
  | str (s : String)
  | bytes (bs : List Nat)
  | arr (xs : List DVal)
  | result (entries : List (String × DVal))
deriving Repr

/-- Key membership in a decoded-object entry list. -/
def dHasKey (k : String) (kvs : List (String × DVal)) : Bool :=
  kvs.any (fun kv => kv.1 = k)

/-- `obj[k]` over a decoded-object entry list. -/
def dLookup (k : String) (kvs : List (String × DVal)) : Option DVal :=
  (kvs.find? (fun kv => kv.1 = k)).map Prod.snd

/-- `bytes(x)` on a decoded JSON value: a list of in-range integers
converts, an out-of-range integer raises `ValueError`, a non-integer
element or a non-list non-integer argument raises `TypeError`, and a
non-negative integer count yields that many zero bytes. -/
def pyBytesOf : DVal → Except PyErr (List Nat)
  | .arr xs =>
    xs.foldrM
      (fun x acc =>
        match x with
        | .num n =>
          if 0 ≤ n ∧ n < 256 then .ok (n.toNat :: acc)
          else .error { kind := "ValueError", msg := "bytes must be in range(0, 256)" }
        | _ =>
          .error { kind := "TypeError", msg := "cannot be interpreted as an integer" })
      []
  | .num n =>
    if 0 ≤ n then .ok (List.replicate n.toNat 0)
    else .error { kind := "ValueError", msg := "negative count" }
  | .str _ => .error { kind := "TypeError", msg := "string argument without an encoding" }
  | _ => .error { kind := "TypeError", msg := "cannot convert object to bytes" }

/-- The `object_hook` of `decode_json`: a mapping whose key set is
exactly `{bytes}` or `{bytes, subtype}` is converted with `bytes(...)`;
any exception from the conversion meets the handler `except e as
ValueError:`, whose expression `e` — evaluated while the exception is in
flight, whatever its class — is an undefined name, so `NameError`
replaces every such exception; every other mapping becomes a
`TuberResult`.  (Python dict keys are unique, so entry lists with
distinct keys model the input.) -/
def jsonObjectHook (kvs : List (String × DVal)) : Except PyErr DVal :=
  if dHasKey "bytes" kvs
     && (kvs.length == 1 || (kvs.length == 2 && dHasKey "subtype" kvs)) then
    match pyBytesOf ((dLookup "bytes" kvs).getD .null) with
    | .ok bs => .ok (.bytes bs)
    | .error _ => .error { kind := "NameError", msg := "name 'e' is not defined" }
  else .ok (.result kvs)

mutual

/-- `decode_json` on parsed JSON: the object hook is applied to every
object, innermost first. -/
def decodeJson : JVal → Except PyErr DVal
  | .null => .ok .null
  | .jbool b => .ok (.dbool b)
  | .num n => .ok (.num n)
  | .str s => .ok (.str s)
  | .arr xs =>
    match decodeJsonList xs with
    | .ok ds => .ok (.arr ds)
    | .error e => .error e
  | .obj kvs =>
    match decodeJsonEntries kvs with
    | .ok ds => jsonObjectHook ds
    | .error e => .error e

def decodeJsonList : List JVal → Except PyErr (List DVal)
  | [] => .ok []
  | x :: xs =>
    match decodeJson x, decodeJsonList xs with
    | .ok d, .ok ds => .ok (d :: ds)
    | .error e, _ => .error e
    | _, .error e => .error e

def decodeJsonEntries : List (String × JVal) → Except PyErr (List (String × DVal))
  | [] => .ok []
  | (k, v) :: kvs =>
    match decodeJson v, decodeJsonEntries kvs with
    | .ok d, .ok ds => .ok ((k, d) :: ds)
    | .error e, _ => .error e
    | _, .error e => .error e

end

mutual

/-- JSON serialisation followed by parsing, on plain data: the identity
embedding of values into parsed JSON (`bytes` are not JSON-serialisable
and have no image; the encoder wraps them first). -/
def toJVal : PyValue → Option JVal
  | .none => some .null
  | .bool b => some (.jbool b)
  | .int n => some (.num n)
  | .str s => some (.str s)
  | .bytes _ => Option.none
  | .pylist xs =>
    match toJValList xs with
    | some js => some (.arr js)
    | Option.none => Option.none
  | .pydict kvs =>
    match toJValEntries kvs with
    | some js => some (.obj js)
    | Option.none => Option.none

def toJValList : List PyValue → Option (List JVal)
  | [] => some []
  | x :: xs =>
    match toJVal x, toJValList xs with
    | some j, some js => some (j :: js)
    | _, _ => Option.none

def toJValEntries : List (String × PyValue) → Option (List (String × JVal))
  | [] => some []
  | (k, v) :: kvs =>
    match toJVal v, toJValEntries kvs with
    | some j, some js => some ((k, j) :: js)
    | _, _ => Option.none

end

/-! ## Descriptor name extraction (for the reflector claims) -/

/-- The names stored under one descriptor field: elements of the flat
name list in simple mode, keys of the keyed mapping in recursive mode. -/
def descNamesAt (field : String) (desc : List (String × PyNode)) : List String :=
  match lookupKey field desc with
  | some (.nlist xs) =>
    xs.filterMap (fun n => match n with | .val (.str s) => some s | _ => Option.none)
  | some (.ndict kvs) => kvs.map Prod.fst
  | _ => []

/-- Every method, property or nested-object name a descriptor exposes. -/
def descExposedNames (desc : List (String × PyNode)) : List String :=
  descNamesAt "methods" desc ++ descNamesAt "properties" desc
    ++ descNamesAt "objects" desc

/-- The exposed names of a reflection outcome: those of the descriptor on
success, none when the reflector raised. -/
def descExposedNamesOf (x : Except PyErr (List (String × PyNode))) : List String :=
  match x with
  | .ok d => descExposedNames d
  | .error _ => []

/-- Key presence in a reflection outcome (`false` when the reflector
raised). -/
def exceptHasKey (k : String) (x : Except PyErr (List (String × PyNode))) : Bool :=
  match x with
  | .ok d => hasKey k d
  | .error _ => false

/-- Whether a node carries a custom `tuber_meta` entry in its own
attribute dictionary.  (The `TuberContainer` class method is not custom:
its metadata is the modelled `values`/`keys` output, and other node kinds
have no such attribute.) -/
def hasCustomTuberMeta : PyNode → Bool
  | .obj (.mk _ _ _ attrs) => hasKey "tuber_meta" attrs
  | _ => false

/-- Python lists and dicts among object nodes (`isinstance(data, (list,
dict))` for the container constructor). -/
def isPyListOrDict : PyNode → Bool
  | .nlist _ => true
  | .ndict _ => true
  | .val (.pylist _) => true
  | .val (.pydict _) => true
  | _ => false

/-! ## Concrete fixtures used by witnesses and counterexamples -/

/-- An object with a single-underscore attribute (not dunder, not
class-mangled). -/
def underscoreObj : PyNode :=
  .obj (.mk "SomeClass" Option.none false [("_private", .val (.int 1))])

/-- A one-item list container of an attribute-less object. -/
def fixContainerData : TCData := .lst [.obj (.mk "NullObject" Option.none false [])]

/-- A method returning `1` with no warnings. -/
def fixOkMethod : PyMethod :=
  .mk "m" Option.none (some "(self)") (fun _ _ => (.ok (.int 1), []))

/-- A method raising `ValueError` with no warnings. -/
def fixErrMethod : PyMethod :=
  .mk "b" Option.none (some "(self)") (fun _ _ =>
    (.error { kind := "ValueError", msg := "nope" }, []))

/-- A method emitting one warning and returning `True`. -/
def fixWarnMethod : PyMethod :=
  .mk "w" Option.none (some "(self)") (fun _ _ =>
    (.ok (.bool true), ["This is a warning"]))

/-- A registry exposing the three fixture methods on one object. -/
def fixRegistry : Registry :=
  [("X", .obj (.mk "X" Option.none false
    [("m", .mthd fixOkMethod), ("b", .mthd fixErrMethod), ("w", .mthd fixWarnMethod)]))]

/-- Invoke `X.m` (succeeds). -/
def fixReqOk : Request := { object := some (.str "X"), method := some "m" }

/-- Invoke `X.b` (raises). -/
def fixReqErr : Request := { object := some (.str "X"), method := some "b" }

/-- Invoke `X.w` (warns). -/
def fixReqWarn : Request := { object := some (.str "X"), method := some "w" }

/-- A handler with the default format registered. -/
def fixHandler : RequestHandler :=
  { registry := fixRegistry, codecs := ["application/json", "application/cbor"] }

/-! ## Shared helper lemmas -/

theorem hasKey_cons (k : String) (a : String × PyNode) (t : List (String × PyNode)) :
    hasKey k (a :: t) = (decide (a.1 = k) || hasKey k t) := by
  simp [hasKey]

theorem lookupKey_cons (k : String) (a : String × PyNode) (t : List (String × PyNode)) :
    lookupKey k (a :: t) = if a.1 = k then some a.2 else lookupKey k t := by
  by_cases h : a.1 = k
  · simp [lookupKey, List.find?_cons_of_pos, h]
  · simp [lookupKey, List.find?_cons_of_neg, h]

theorem setKey_cons_of_hasKey (k : String) (v : PyNode) (a : String × PyNode)
    (t : List (String × PyNode)) (h : hasKey k (a :: t) = true) :
    setKey k v (a :: t) =
      (if a.1 = k then (k, v) else a) :: (a :: t).tail.map (fun kv => if kv.1 = k then (k, v) else kv) := by
  simp [setKey, h]

theorem lookupKey_setKey_same (k : String) (v : PyNode) (d : List (String × PyNode)) :
    lookupKey k (setKey k v d) = some v := by
  unfold setKey
  by_cases h : hasKey k d = true
  · rw [if_pos h]
    induction d with
    | nil => simp [hasKey] at h
    | cons a t ih =>
      by_cases hak : a.1 = k
      · simp [List.map_cons, hak, lookupKey_cons]
      · rw [hasKey_cons] at h
        simp only [hak, decide_eq_true_eq, decide_False] at h
        have ht : hasKey k t = true := by
          cases hkt : hasKey k t with
          | true => rfl
          | false => rw [hkt] at h; simp [hak] at h
        simpa [List.map_cons, hak, lookupKey_cons] using ih ht
  · rw [if_neg h]
    induction d with
    | nil => simp [lookupKey_cons, lookupKey, List.find?]
    | cons a t ih =>
      rw [hasKey_cons] at h
      have hak : a.1 ≠ k := by
        intro hh
        exact h (by simp [hh])
      have ht : ¬ hasKey k t = true := by
        intro hh
        exact h (by simp [hh])
      simpa [List.cons_append, lookupKey_cons, hak] using ih ht

theorem map_setKey_id (k2 : String) (v : PyNode) :
    ∀ (t : List (String × PyNode)), hasKey k2 t = false →
      t.map (fun kv => if kv.1 = k2 then (k2, v) else kv) = t
  | [], _ => rfl
  | b :: u, h => by
    rw [hasKey_cons] at h
    have hb : ¬ b.1 = k2 := by
      intro hh
      rw [hh] at h
      simp at h
    have hu : hasKey k2 u = false := by
      cases hx : hasKey k2 u with
      | false => rfl
      | true => rw [hx] at h; simp at h
    simp [hb, map_setKey_id k2 v u hu]

theorem lookupKey_append_other (k k2 : String) (v : PyNode) (d : List (String × PyNode))
    (hne : k ≠ k2) : lookupKey k (d ++ [(k2, v)]) = lookupKey k d := by
  induction d with
  | nil =>
    have hkk : ¬ k2 = k := fun hh => hne hh.symm
    simp [lookupKey, List.find?, hkk]
  | cons a t ih =>
    by_cases hk : a.1 = k
    · simp [List.cons_append, lookupKey_cons, hk]
    · simp only [List.cons_append, lookupKey_cons, if_neg hk]
      exact ih

theorem lookupKey_setKey_other (k k2 : String) (v : PyNode) (d : List (String × PyNode))
    (hne : k ≠ k2) : lookupKey k (setKey k2 v d) = lookupKey k d := by
  unfold setKey
  by_cases h : hasKey k2 d = true
  · rw [if_pos h]
    clear h
    induction d with
    | nil => rfl
    | cons a t ih =>
      by_cases hak : a.1 = k2
      · have hk : ¬ a.1 = k := fun hh => hne (hh.symm.trans hak)
        have hkk : ¬ k2 = k := fun hh => hne hh.symm
        simp only [List.map_cons, if_pos hak, lookupKey_cons, if_neg hk, if_neg hkk]
        exact ih
      · simp only [List.map_cons, if_neg hak, lookupKey_cons]
        rw [ih]
  · rw [if_neg h]
    exact lookupKey_append_other k k2 v d hne

theorem lookupKey_eq_none (k : String) :
    ∀ d : List (String × PyNode), hasKey k d = false → lookupKey k d = Option.none
  | [], _ => rfl
  | a :: t, h => by
    rw [hasKey_cons] at h
    have ha : ¬ a.1 = k := by
      intro hh
      rw [hh] at h
      simp at h
    have ht : hasKey k t = false := by
      cases hx : hasKey k t with
      | false => rfl
      | true => rw [hx] at h; simp at h
    rw [lookupKey_cons, if_neg ha]
    exact lookupKey_eq_none k t ht

theorem hasKey_map_setKeyFn (k k2 : String) (v : PyNode) :
    ∀ d : List (String × PyNode), hasKey k d = true →
      hasKey k (d.map (fun kv => if kv.1 = k2 then (k2, v) else kv)) = true
  | [], h => by simp [hasKey] at h
  | a :: t, h => by
    rw [hasKey_cons] at h
    by_cases hak : a.1 = k
    · by_cases hak2 : a.1 = k2
      · have hkk : k2 = k := by rw [← hak2, hak]
        rw [List.map_cons, if_pos hak2, hasKey_cons]
        simp [hkk]
      · rw [List.map_cons, if_neg hak2, hasKey_cons]
        simp [hak]
    · have ht : hasKey k t = true := by
        cases hx : hasKey k t with
        | true => rfl
        | false => rw [hx] at h; simp [hak] at h
      rw [List.map_cons, hasKey_cons, hasKey_map_setKeyFn k k2 v t ht]
      simp

theorem hasKey_setKey (k k2 : String) (v : PyNode) (d : List (String × PyNode))
    (h : hasKey k d = true) : hasKey k (setKey k2 v d) = true := by
  unfold setKey
  by_cases hk2 : hasKey k2 d = true
  · rw [if_pos hk2]
    exact hasKey_map_setKeyFn k k2 v d h
  · rw [if_neg hk2]
    unfold hasKey at h ⊢
    rw [List.any_append, h]
    rfl

theorem hasKey_dictUpdate (k : String) (other : List (String × PyNode)) :
    ∀ d : List (String × PyNode), hasKey k d = true →
      hasKey k (dictUpdate d other) = true := by
  induction other with
  | nil => intro d h; exact h
  | cons b u ih =>
    intro d h
    have hstep : dictUpdate d (b :: u) = dictUpdate (setKey b.1 b.2 d) u := by
      simp [dictUpdate]
    rw [hstep]
    exact ih (setKey b.1 b.2 d) (hasKey_setKey k b.1 b.2 d h)

theorem resolveItems_eq_mapM (xs : List PyNode) :
    resolveItems xs = xs.mapM (fun x => (resolve_object x true).map PyNode.ndict) := by
  induction xs with
  | nil => rfl
  | cons a t ih =>
    rw [List.mapM_cons, ← ih]
    cases hx : resolve_object a true with
    | error e => simp [resolveItems, hx, Except.map, bind, Except.bind]
    | ok dd =>
      cases ht : resolveItems t with
      | error e => simp [resolveItems, hx, ht, Except.map, bind, Except.bind]
      | ok ds => simp [resolveItems, hx, ht, Except.map, bind, Except.bind, pure, Except.pure]

theorem resolveItemsPairs_eq_mapM (kvs : List (String × PyNode)) :
    resolveItemsPairs kvs =
      kvs.mapM (fun kv => (resolve_object kv.2 true).map PyNode.ndict) := by
  induction kvs with
  | nil => rfl
  | cons a t ih =>
    rw [List.mapM_cons, ← ih]
    cases hx : resolve_object a.2 true with
    | error e => simp [resolveItemsPairs, hx, Except.map, bind, Except.bind]
    | ok dd =>
      cases ht : resolveItemsPairs t with
      | error e => simp [resolveItemsPairs, hx, ht, Except.map, bind, Except.bind]
      | ok ds => simp [resolveItemsPairs, hx, ht, Except.map, bind, Except.bind, pure, Except.pure]

theorem resolve_object_has_doc_and_methods :
    ∀ (x : PyNode) (r : Bool) (d : List (String × PyNode)),
      resolve_object x r = .ok d →
      hasKey "__doc__" d = true ∧ hasKey "methods" d = true := by
  intro x r d h
  cases x with
  | obj o =>
    cases o with
    | mk cls doc tub attrs =>
      cases r with
      | false =>
        simp only [resolve_object] at h
        cases Except.ok.inj h
        exact ⟨rfl, rfl⟩
      | true =>
        simp only [resolve_object] at h
        cases hc : classifyRec cls attrs with
        | error e => rw [hc] at h; exact Except.noConfusion h
        | ok c =>
          rw [hc] at h
          simp only at h
          cases hl : lookupKey "tuber_meta" attrs with
          | none =>
            rw [hl] at h
            simp only at h
            cases Except.ok.inj h
            exact ⟨rfl, rfl⟩
          | some a =>
            rw [hl] at h
            cases a with
            | mthd m =>
              simp only at h
              cases hr : (m.run [] []).1 with
              | error e => rw [hr] at h; exact Except.noConfusion h
              | ok v =>
                rw [hr] at h
                cases v with
                | pydict kvs =>
                  simp only at h
                  cases Except.ok.inj h
                  exact ⟨hasKey_dictUpdate "__doc__" _ _ rfl,
                         hasKey_dictUpdate "methods" _ _ rfl⟩
                | none => exact Except.noConfusion h
                | bool b => exact Except.noConfusion h
                | int n => exact Except.noConfusion h
                | str s => exact Except.noConfusion h
                | bytes bs => exact Except.noConfusion h
                | pylist xs => exact Except.noConfusion h
            | val v => exact Except.noConfusion h
            | nlist xs => exact Except.noConfusion h
            | ndict kvs2 => exact Except.noConfusion h
            | obj o2 => exact Except.noConfusion h
            | cont data2 => exact Except.noConfusion h
  | cont data =>
    cases r with
    | false =>
      simp only [resolve_object] at h
      cases Except.ok.inj h
      exact ⟨rfl, rfl⟩
    | true =>
      simp only [resolve_object] at h
      cases hm : TuberContainer.tuber_meta data with
      | error e => rw [hm] at h; exact Except.noConfusion h
      | ok meta =>
        rw [hm] at h
        simp only at h
        cases Except.ok.inj h
        exact ⟨hasKey_dictUpdate "__doc__" meta _ rfl,
               hasKey_dictUpdate "methods" meta _ rfl⟩
  | val v =>
    cases r <;> (simp only [resolve_object] at h; cases Except.ok.inj h; exact ⟨rfl, rfl⟩)
  | nlist xs =>
    cases r <;> (simp only [resolve_object] at h; cases Except.ok.inj h; exact ⟨rfl, rfl⟩)
  | ndict kvs =>
    cases r <;> (simp only [resolve_object] at h; cases Except.ok.inj h; exact ⟨rfl, rfl⟩)
  | mthd m =>
    cases r <;> (simp only [resolve_object] at h; cases Except.ok.inj h; exact ⟨rfl, rfl⟩)

/-! ## C10: `TuberContainer.__init__` -/

/-- C10: constructing a `TuberContainer` from an empty list or an empty
dict raises `ValueError` ("Empty list container" / "Empty dict
container"); any value that is neither a list nor a dict raises
`TypeError` ("Invalid container type"); a non-empty list or dict is
accepted and stored unchanged. -/
theorem tuberContainer_init_spec :
    (TuberContainer.init (.nlist []) =
      .error { kind := "ValueError", msg := "Empty list container" })
  ∧ (TuberContainer.init (.ndict []) =
      .error { kind := "ValueError", msg := "Empty dict container" })
  ∧ (∀ xs : List PyNode, xs ≠ [] → TuberContainer.init (.nlist xs) = .ok (.lst xs))
  ∧ (∀ kvs : List (String × PyNode), kvs ≠ [] →
      TuberContainer.init (.ndict kvs) = .ok (.dct kvs))
  ∧ (∀ n : PyNode, isPyListOrDict n = false →
      TuberContainer.init n =
        .error { kind := "TypeError", msg := "Invalid container type" }) := by
  refine ⟨rfl, rfl, ?_, ?_, ?_⟩
  · intro xs h
    cases xs with
    | nil => exact absurd rfl h
    | cons a t => rfl
  · intro kvs h
    cases kvs with
    | nil => exact absurd rfl h
    | cons a t => rfl
  · intro n h
    cases n with
    | val v => cases v <;> first | rfl | simp [isPyListOrDict] at h
    | nlist xs => simp [isPyListOrDict] at h
    | ndict kvs => simp [isPyListOrDict] at h
    | mthd m => rfl
    | obj o => rfl
    | cont d => rfl

/-- Witness for C10 at concrete inputs. -/
theorem tuberContainer_init_spec_witness :
    TuberContainer.init (.nlist [underscoreObj]) = .ok (.lst [underscoreObj])
  ∧ TuberContainer.init (.val (.int 3)) =
      .error { kind := "TypeError", msg := "Invalid container type" } :=
  ⟨tuberContainer_init_spec.2.2.1 [underscoreObj] (List.cons_ne_nil _ _),
   tuberContainer_init_spec.2.2.2.2 (.val (.int 3)) rfl⟩

/-! ## C4: container descriptors -/

/-- C4 counterexample: `tuber_meta` of a concrete one-item list
container emits no `container`, `items`, `item_doc` or `item_methods`
field; it emits `values` (so the claimed descriptor compression does not
exist on the server side). -/
theorem tuber_meta_counterexample :
    exceptHasKey "container" (TuberContainer.tuber_meta fixContainerData) = false
  ∧ exceptHasKey "items" (TuberContainer.tuber_meta fixContainerData) = false
  ∧ exceptHasKey "item_doc" (TuberContainer.tuber_meta fixContainerData) = false
  ∧ exceptHasKey "item_methods" (TuberContainer.tuber_meta fixContainerData) = false
  ∧ exceptHasKey "values" (TuberContainer.tuber_meta fixContainerData) = true
  ∧ exceptHasKey "container"
      (resolve_object (.cont fixContainerData) true) = false := by
  refine ⟨rfl, rfl, rfl, rfl, rfl, rfl⟩

/-- C4 (amended): the server-side container descriptor carries the full
descriptor of every item (each with its own `__doc__` and `methods`)
under `values`, plus the key list under `keys` for dict containers,
propagating any exception raised while resolving an item; the client-side
`_resolve_meta`, when handed a descriptor in the compressed
`container`/`items`/`item_doc`/`item_methods` form, re-inflates every
item descriptor with the shared values. -/
theorem tuber_meta_values_and_reinflate_spec :
    (∀ xs : List PyNode, TuberContainer.tuber_meta (.lst xs) =
      (xs.mapM (fun x => (resolve_object x true).map PyNode.ndict)).map
        (fun vs => [("values", PyNode.nlist vs)]))
  ∧ (∀ kvs : List (String × PyNode), TuberContainer.tuber_meta (.dct kvs) =
      (kvs.mapM (fun kv => (resolve_object kv.2 true).map PyNode.ndict)).map
        (fun vs => [("values", PyNode.nlist vs),
                    ("keys", PyNode.nlist (kvs.map (fun kv => PyNode.ofStr kv.1)))]))
  ∧ (∀ (x : PyNode) (d : List (String × PyNode)), resolve_object x true = .ok d →
      hasKey "__doc__" d = true ∧ hasKey "methods" d = true)
  ∧ (∀ (item_doc item_methods : PyNode) (metaitems : List (List (String × PyNode))),
      (reinflateItems item_doc item_methods metaitems).length = metaitems.length
      ∧ ∀ d ∈ reinflateItems item_doc item_methods metaitems,
          lookupKey "__doc__" d = some item_doc
          ∧ lookupKey "methods" d = some item_methods) := by
  refine ⟨?_, ?_, ?_, ?_⟩
  · intro xs
    rw [← resolveItems_eq_mapM]
    cases h : resolveItems xs with
    | error e => simp [TuberContainer.tuber_meta, h, Except.map]
    | ok vs => simp [TuberContainer.tuber_meta, h, Except.map]
  · intro kvs
    rw [← resolveItemsPairs_eq_mapM]
    cases h : resolveItemsPairs kvs with
    | error e => simp [TuberContainer.tuber_meta, h, Except.map]
    | ok vs => simp [TuberContainer.tuber_meta, h, Except.map]
  · intro x d h
    exact resolve_object_has_doc_and_methods x true d h
  · intro item_doc item_methods metaitems
    constructor
    · simp [reinflateItems]
    · intro d hd
      simp only [reinflateItems, List.mem_map] at hd
      obtain ⟨d0, _, rfl⟩ := hd
      constructor
      · rw [lookupKey_setKey_other "__doc__" "methods" item_methods _ (by decide)]
        exact lookupKey_setKey_same "__doc__" item_doc d0
      · exact lookupKey_setKey_same "methods" item_methods _

/-- Witness for C4 (amended) at a concrete container and item list. -/
theorem tuber_meta_values_and_reinflate_spec_witness :
    TuberContainer.tuber_meta fixContainerData =
      .ok [("values", PyNode.nlist [PyNode.ndict
        [("__doc__", PyNode.val .none), ("methods", PyNode.ndict []),
         ("properties", PyNode.ndict []), ("objects", PyNode.ndict [])]])]
  ∧ (hasKey "__doc__" [("__doc__", PyNode.val PyValue.none), ("methods", PyNode.ndict []),
        ("properties", PyNode.ndict []), ("objects", PyNode.ndict [])] = true
     ∧ hasKey "methods" [("__doc__", PyNode.val PyValue.none), ("methods", PyNode.ndict []),
        ("properties", PyNode.ndict []), ("objects", PyNode.ndict [])] = true)
  ∧ ∀ d ∈ reinflateItems (PyNode.ofStr "shared doc") (PyNode.ndict [])
        [[("__doc__", PyNode.val .none)]],
      lookupKey "__doc__" d = some (PyNode.ofStr "shared doc")
      ∧ lookupKey "methods" d = some (PyNode.ndict []) :=
  ⟨(tuber_meta_values_and_reinflate_spec.1 [.obj (.mk "NullObject" Option.none false [])]).trans
      (by rfl),
   tuber_meta_values_and_reinflate_spec.2.2.1 (.obj (.mk "NullObject" Option.none false []))
     [("__doc__", PyNode.val PyValue.none), ("methods", PyNode.ndict []),
      ("properties", PyNode.ndict []), ("objects", PyNode.ndict [])] (by rfl),
   fun d hd => (tuber_meta_values_and_reinflate_spec.2.2.2 (PyNode.ofStr "shared doc")
      (PyNode.ndict []) [[("__doc__", PyNode.val .none)]]).2 d hd⟩

/-! ## C3: reflector name filtering -/

theorem classifyRec_names_not_filtered (cls : String) :
    ∀ (attrs : List (String × PyNode))
      (res : (List (String × PyNode)) × (List (String × PyNode)) × (List (String × PyNode)))
      (name : String),
      classifyRec cls attrs = .ok res →
      (name ∈ res.1.map Prod.fst ∨ name ∈ res.2.1.map Prod.fst
        ∨ name ∈ res.2.2.map Prod.fst) →
      attrFiltered cls name = false := by
  intro attrs
  induction attrs with
  | nil =>
    intro res name hok h
    simp only [classifyRec] at hok
    cases Except.ok.inj hok
    simp at h
  | cons da rest ih =>
    intro res name hok h
    obtain ⟨d, a⟩ := da
    simp only [classifyRec] at hok
    by_cases hf : attrFiltered cls d = true
    · rw [if_pos hf] at hok
      exact ih res name hok h
    · have hf' : attrFiltered cls d = false := by
        cases hx : attrFiltered cls d with
        | false => rfl
        | true => exact absurd hx hf
      rw [if_neg hf] at hok
      by_cases ht : a.isTuberObject = true
      · rw [if_pos ht] at hok
        cases hro : resolve_object a true with
        | error e => rw [hro] at hok; exact Except.noConfusion hok
        | ok dd =>
          rw [hro] at hok
          simp only at hok
          cases hcr : classifyRec cls rest with
          | error e => rw [hcr] at hok; exact Except.noConfusion hok
          | ok r =>
            rw [hcr] at hok
            simp only at hok
            cases Except.ok.inj hok
            rcases h with h | h | h
            · simp only [List.map_cons, List.mem_cons] at h
              rcases h with rfl | h
              · exact hf'
              · exact ih r name hcr (Or.inl h)
            · exact ih r name hcr (Or.inr (Or.inl h))
            · exact ih r name hcr (Or.inr (Or.inr h))
      · rw [if_neg ht] at hok
        by_cases hc : a.isCallable = true
        · rw [if_pos hc] at hok
          cases hcr : classifyRec cls rest with
          | error e => rw [hcr] at hok; exact Except.noConfusion hok
          | ok r =>
            rw [hcr] at hok
            simp only at hok
            cases Except.ok.inj hok
            rcases h with h | h | h
            · exact ih r name hcr (Or.inl h)
            · simp only [List.map_cons, List.mem_cons] at h
              rcases h with rfl | h
              · exact hf'
              · exact ih r name hcr (Or.inr (Or.inl h))
            · exact ih r name hcr (Or.inr (Or.inr h))
        · rw [if_neg hc] at hok
          cases hcr : classifyRec cls rest with
          | error e => rw [hcr] at hok; exact Except.noConfusion hok
          | ok r =>
            rw [hcr] at hok
            simp only at hok
            cases Except.ok.inj hok
            rcases h with h | h | h
            · exact ih r name hcr (Or.inl h)
            · exact ih r name hcr (Or.inr (Or.inl h))
            · simp only [List.map_cons, List.mem_cons] at h
              rcases h with rfl | h
              · exact hf'
              · exact ih r name hcr (Or.inr (Or.inr h))

/-- C3 counterexample: the reflector exposes the single-underscore
attribute `_private` of a concrete object — the filter only excludes
`__…` and `_<ClassName>__…` names, not every name starting with `_`. -/
theorem resolve_object_underscore_counterexample :
    "_private" ∈ descExposedNamesOf (resolve_object underscoreObj false)
  ∧ pyStartsWith "_private" "_" = true := by
  constructor
  · decide
  · decide

/-- Names coming out of the simple-mode string lists are the attribute
names they were built from. -/
theorem mem_filterMap_ofStr (l : List (String × PyNode)) (name : String)
    (h : name ∈ (l.map (fun kv => PyNode.ofStr kv.1)).filterMap
      (fun n => match n with | PyNode.val (PyValue.str s) => some s | _ => Option.none)) :
    name ∈ l.map Prod.fst := by
  induction l with
  | nil => simp at h
  | cons a t ih =>
    simp only [List.map_cons, List.filterMap_cons, PyNode.ofStr] at h
    rcases List.mem_cons.mp h with rfl | h
    · exact List.mem_cons_self _ _
    · exact List.mem_cons_of_mem _ (ih h)

/-- C3 (amended): the attribute scan of the reflector drops exactly the
`__…` and `_<ClassName>__…` names (`ClassName` the class of the described
node): a simple-mode descriptor never exposes such a method, property or
nested-object name, and neither does a recursive-mode descriptor of a
node without a custom `tuber_meta` attribute.  Single-underscore names
are not excluded, and an object defining its own `tuber_meta` gets its
result merged into the recursive descriptor unfiltered. -/
theorem resolve_object_name_filter_spec :
    (∀ (node : PyNode) (name : String),
        name ∈ descExposedNamesOf (resolve_object node false) →
        pyStartsWith name "__" = false
        ∧ pyStartsWith name ("_" ++ node.typeName ++ "__") = false)
  ∧ (∀ (node : PyNode) (name : String),
        hasCustomTuberMeta node = false →
        name ∈ descExposedNamesOf (resolve_object node true) →
        pyStartsWith name "__" = false
        ∧ pyStartsWith name ("_" ++ node.typeName ++ "__") = false) := by
  constructor
  · intro node name h
    cases node with
    | obj o =>
      cases o with
      | mk cls doc tuber attrs =>
        have hdesc : descExposedNamesOf (resolve_object (.obj (.mk cls doc tuber attrs)) false)
            = (((attrs.filter (fun kv => !(attrFiltered cls kv.1))).filter
                 (fun kv => !(kv.2.isTuberObject) && kv.2.isCallable)).map
                   (fun kv => PyNode.ofStr kv.1)).filterMap
                 (fun n => match n with | PyNode.val (PyValue.str s) => some s | _ => Option.none)
              ++ ((((attrs.filter (fun kv => !(attrFiltered cls kv.1))).filter
                 (fun kv => !(kv.2.isTuberObject) && !(kv.2.isCallable))).map
                   (fun kv => PyNode.ofStr kv.1)).filterMap
                 (fun n => match n with | PyNode.val (PyValue.str s) => some s | _ => Option.none)) := by
          simp [descExposedNamesOf, descExposedNames, descNamesAt, resolve_object,
                lookupKey, List.find?]
        rw [hdesc] at h
        have hnf : attrFiltered cls name = false := by
          have h' : name ∈ ((attrs.filter (fun kv => !(attrFiltered cls kv.1))).filter
                (fun kv => !(kv.2.isTuberObject) && kv.2.isCallable)).map Prod.fst
              ∨ name ∈ ((attrs.filter (fun kv => !(attrFiltered cls kv.1))).filter
                (fun kv => !(kv.2.isTuberObject) && !(kv.2.isCallable))).map Prod.fst := by
            rcases List.mem_append.mp h with h | h
            · exact Or.inl (mem_filterMap_ofStr _ _ h)
            · exact Or.inr (mem_filterMap_ofStr _ _ h)
          rcases h' with h' | h' <;>
          · obtain ⟨kv, hkv, rfl⟩ := List.mem_map.mp h'
            have := (List.mem_filter.mp (List.mem_filter.mp hkv).1).2
            simpa using this
        simpa [attrFiltered, PyNode.typeName] using hnf
    | cont data =>
      have ht : (PyNode.cont data).typeName = "TuberContainer" := rfl
      rw [ht]
      have hnames : descExposedNamesOf (resolve_object (.cont data) false)
          = ["tuber_call", "tuber_meta"] := by
        simp only [descExposedNamesOf, descExposedNames, descNamesAt, resolve_object,
          lookupKey, List.find?]
        rfl
      rw [hnames] at h
      simp only [List.mem_cons, List.not_mem_nil, or_false] at h
      rcases h with rfl | rfl
      · exact ⟨rfl, rfl⟩
      · exact ⟨rfl, rfl⟩
    | val v =>
      have hempty : descExposedNamesOf (resolve_object (.val v) false) = [] := by
        simp [descExposedNamesOf, descExposedNames, descNamesAt, resolve_object,
          lookupKey, List.find?]
      rw [hempty] at h
      exact absurd h (List.not_mem_nil name)
    | nlist xs =>
      have hempty : descExposedNamesOf (resolve_object (.nlist xs) false) = [] := by
        simp [descExposedNamesOf, descExposedNames, descNamesAt, resolve_object,
          lookupKey, List.find?]
      rw [hempty] at h
      exact absurd h (List.not_mem_nil name)
    | ndict kvs =>
      have hempty : descExposedNamesOf (resolve_object (.ndict kvs) false) = [] := by
        simp [descExposedNamesOf, descExposedNames, descNamesAt, resolve_object,
          lookupKey, List.find?]
      rw [hempty] at h
      exact absurd h (List.not_mem_nil name)
    | mthd m =>
      have hempty : descExposedNamesOf (resolve_object (.mthd m) false) = [] := by
        simp [descExposedNamesOf, descExposedNames, descNamesAt, resolve_object,
          lookupKey, List.find?]
      rw [hempty] at h
      exact absurd h (List.not_mem_nil name)
  · intro node name hcm h
    cases node with
    | obj o =>
      cases o with
      | mk cls doc tuber attrs =>
        have hl : lookupKey "tuber_meta" attrs = Option.none :=
          lookupKey_eq_none _ _ (by simpa [hasCustomTuberMeta] using hcm)
        cases hc : classifyRec cls attrs with
        | error e =>
          have hempty : descExposedNamesOf
              (resolve_object (.obj (.mk cls doc tuber attrs)) true) = [] := by
            simp [descExposedNamesOf, resolve_object, hc]
          rw [hempty] at h
          exact absurd h (List.not_mem_nil name)
        | ok c =>
          have hnf : attrFiltered cls name = false := by
            apply classifyRec_names_not_filtered cls attrs c name hc
            have hro : resolve_object (.obj (.mk cls doc tuber attrs)) true
                = .ok [("__doc__", PyNode.ofOptStr doc), ("methods", PyNode.ndict c.2.1),
                       ("properties", PyNode.ndict c.2.2), ("objects", PyNode.ndict c.1)] := by
              simp only [resolve_object, hc, hl, if_true]
            have hdesc : descExposedNamesOf
                (resolve_object (.obj (.mk cls doc tuber attrs)) true)
                = c.2.1.map Prod.fst
                  ++ (c.2.2.map Prod.fst ++ c.1.map Prod.fst) := by
              rw [hro]
              simp [descExposedNamesOf, descExposedNames, descNamesAt,
                    lookupKey, List.find?]
            rw [hdesc] at h
            rcases List.mem_append.mp h with h | h
            · exact Or.inr (Or.inl h)
            · rcases List.mem_append.mp h with h | h
              · exact Or.inr (Or.inr h)
              · exact Or.inl h
          simpa [attrFiltered, PyNode.typeName] using hnf
    | cont data =>
      have ht : (PyNode.cont data).typeName = "TuberContainer" := rfl
      rw [ht]
      have hnames : descExposedNamesOf (resolve_object (.cont data) true)
            = ["tuber_call", "tuber_meta"]
          ∨ descExposedNamesOf (resolve_object (.cont data) true) = [] := by
        cases data with
        | lst xs =>
          cases hr : resolveItems xs with
          | error e =>
            right
            simp [descExposedNamesOf, resolve_object, TuberContainer.tuber_meta, hr]
          | ok vs =>
            left
            simp [descExposedNamesOf, descExposedNames, descNamesAt, resolve_object,
                  TuberContainer.tuber_meta, hr, dictUpdate, setKey, hasKey,
                  lookupKey, List.find?]
        | dct kvs =>
          cases hr : resolveItemsPairs kvs with
          | error e =>
            right
            simp [descExposedNamesOf, resolve_object, TuberContainer.tuber_meta, hr]
          | ok vs =>
            left
            simp [descExposedNamesOf, descExposedNames, descNamesAt, resolve_object,
                  TuberContainer.tuber_meta, hr, dictUpdate, setKey, hasKey,
                  lookupKey, List.find?]
      rcases hnames with hn | hn <;> rw [hn] at h
      · simp only [List.mem_cons, List.not_mem_nil, or_false] at h
        rcases h with rfl | rfl
        · exact ⟨rfl, rfl⟩
        · exact ⟨rfl, rfl⟩
      · exact absurd h (List.not_mem_nil name)
    | val v =>
      have hempty : descExposedNamesOf (resolve_object (.val v) true) = [] := by
        simp [descExposedNamesOf, descExposedNames, descNamesAt, resolve_object,
          lookupKey, List.find?]
      rw [hempty] at h
      exact absurd h (List.not_mem_nil name)
    | nlist xs =>
      have hempty : descExposedNamesOf (resolve_object (.nlist xs) true) = [] := by
        simp [descExposedNamesOf, descExposedNames, descNamesAt, resolve_object,
          lookupKey, List.find?]
      rw [hempty] at h
      exact absurd h (List.not_mem_nil name)
    | ndict kvs =>
      have hempty : descExposedNamesOf (resolve_object (.ndict kvs) true) = [] := by
        simp [descExposedNamesOf, descExposedNames, descNamesAt, resolve_object,
          lookupKey, List.find?]
      rw [hempty] at h
      exact absurd h (List.not_mem_nil name)
    | mthd m =>
      have hempty : descExposedNamesOf (resolve_object (.mthd m) true) = [] := by
        simp [descExposedNamesOf, descExposedNames, descNamesAt, resolve_object,
          lookupKey, List.find?]
      rw [hempty] at h
      exact absurd h (List.not_mem_nil name)

/-- Witness for C3 (amended) at the container fixture, exercising both
modes. -/
theorem resolve_object_name_filter_spec_witness :
    (pyStartsWith "tuber_call" "__" = false
     ∧ pyStartsWith "tuber_call" ("_" ++ (PyNode.cont fixContainerData).typeName ++ "__") = false)
  ∧ (pyStartsWith "tuber_meta" "__" = false
     ∧ pyStartsWith "tuber_meta" ("_" ++ (PyNode.cont fixContainerData).typeName ++ "__") = false) :=
  ⟨resolve_object_name_filter_spec.1 (.cont fixContainerData) "tuber_call" (by decide),
   resolve_object_name_filter_spec.2 (.cont fixContainerData) "tuber_meta" rfl (by decide)⟩

/-! ## C5: registry navigation error wrapping -/

/-- C5: when evaluating an object path raises, `TuberRegistry.__getitem__`
re-raises an exception of the same class whose message is the original
message followed by `" (Invalid object name '<path>')"` (with the
normalised path repr for list paths); in particular, describing the
unknown root `Nope` yields the exact error envelope of the spec. -/
theorem registry_getitem_error_spec :
    (∀ (reg : Registry) (s : String) (e : PyErr), pygetattr (regNode reg) s = .error e →
       TuberRegistry.getitem reg (some (.str s)) =
         .error { kind := e.kind,
                  msg := e.msg ++ " (Invalid object name " ++ pyq s ++ ")" })
  ∧ (∀ (reg : Registry) (elems : List PathElem) (e : PyErr), evalPath reg elems = .error e →
       TuberRegistry.getitem reg (some (.lst elems)) =
         .error { kind := e.kind,
                  msg := e.msg ++ " (Invalid object name " ++ pyq (normPathRepr elems) ++ ")" })
  ∧ (invoke [] { object := some (.str "Nope") } =
       [("error", .ndict [("message", .ofStr
         "AttributeError: 'TuberRegistry' object has no attribute 'Nope' (Invalid object name 'Nope')")])]) := by
  refine ⟨?_, ?_, ?_⟩
  · intro reg s e h
    simp [TuberRegistry.getitem, h]
  · intro reg elems e h
    simp [TuberRegistry.getitem, h]
  · rfl

/-- Witness for C5 at the unknown root name. -/
theorem registry_getitem_error_spec_witness :
    TuberRegistry.getitem ([] : Registry) (some (.str "Nope")) =
      .error { kind := "AttributeError",
               msg := "'TuberRegistry' object has no attribute 'Nope'"
                      ++ " (Invalid object name " ++ pyq "Nope" ++ ")" } :=
  registry_getitem_error_spec.1 [] "Nope"
    { kind := "AttributeError", msg := "'TuberRegistry' object has no attribute 'Nope'" } rfl

/-! ## C2: the dispatcher's envelope discipline -/

theorem describe_ok_shape (reg : Registry) (req : Request) (d : List (String × PyNode))
    (h : describe reg req = .ok d) : ∃ v, d = [("result", v)] := by
  by_cases h1 : (!truthyPath req.object && !truthyStr req.method && !truthyStr req.prop) = true
  · simp only [describe, h1, if_true] at h
    by_cases hr : req.resolve = true
    · rw [if_pos hr] at h
      cases hro : resolveRegistryObjects reg with
      | error e => rw [hro] at h; exact Except.noConfusion h
      | ok objs =>
        rw [hro] at h
        simp only at h
        exact ⟨_, (Except.ok.inj h).symm⟩
    · rw [if_neg hr] at h
      exact ⟨_, (Except.ok.inj h).symm⟩
  · simp only [describe, h1, if_false, Bool.false_eq_true] at h
    cases hobj : TuberRegistry.getitem reg req.object with
    | error e => simp [hobj, bind, Except.bind] at h
    | ok obj =>
      simp only [hobj, bind, Except.bind] at h
      by_cases h2 : (!truthyStr req.method && !truthyStr req.prop) = true
      · simp only [h2, if_true, pure, Except.pure] at h
        cases hro : resolve_object obj req.resolve with
        | error e => simp [hro, bind, Except.bind] at h
        | ok dd =>
          simp only [hro, bind, Except.bind, pure, Except.pure] at h
          exact ⟨_, (Except.ok.inj h).symm⟩
      · simp only [h2, if_false, Bool.false_eq_true, pure, Except.pure] at h
        by_cases h3 : truthyStr req.prop = true
        · simp only [h3, if_true] at h
          cases hp : pygetattr obj (req.prop.getD "") with
          | error e => simp [hp] at h
          | ok attr =>
            simp only [hp] at h
            by_cases h4 : attr.isTuberObject = true
            · simp only [h4, if_true] at h
              cases hro : resolve_object attr req.resolve with
              | error e => simp [hro, bind, Except.bind] at h
              | ok dd =>
                simp only [hro, bind, Except.bind, pure, Except.pure] at h
                exact ⟨_, (Except.ok.inj h).symm⟩
            · simp only [h4, if_false, Bool.false_eq_true] at h
              by_cases h5 : (!attr.isCallable) = true
              · simp only [h5, if_true] at h
                exact ⟨_, (Except.ok.inj h).symm⟩
              · simp only [h5, if_false, Bool.false_eq_true] at h
                exact ⟨_, (Except.ok.inj h).symm⟩
        · simp only [h3, if_false, Bool.false_eq_true] at h
          simp [throw, throwThe, MonadExceptOf.throw] at h

theorem invokeTry_done (reg : Registry) (req : Request) (resp : List (String × PyNode))
    (h : invokeTry reg req = .ok (.done resp)) : describe reg req = .ok resp := by
  unfold invokeTry at h
  by_cases hc : (!(req.object.isSome && req.method.isSome)) = true
  · simp only [hc, if_true] at h
    cases hd : describe reg req with
    | error e => rw [hd] at h; simp [Except.map] at h
    | ok d =>
      rw [hd] at h
      simp only [Except.map] at h
      have := Except.ok.inj h
      cases this
      rfl
  · simp only [hc, if_false, Bool.false_eq_true] at h
    cases hobj : TuberRegistry.getitem reg req.object with
    | error e => simp [hobj, bind, Except.bind] at h
    | ok obj =>
      simp only [hobj, bind, Except.bind] at h
      cases hm : pygetattr obj (req.method.getD "") with
      | error e => simp [hm] at h
      | ok m =>
        simp only [hm] at h
        cases hargs : req.args with
        | none =>
          simp only [hargs] at h
          cases hkw : req.kwargs with
          | none =>
            simp only [hkw, pure, Except.pure] at h
            exact InvokeStage.noConfusion (Except.ok.inj h)
          | some kw =>
            cases kw <;> simp only [hkw, pure, Except.pure] at h <;>
              first
              | exact InvokeStage.noConfusion (Except.ok.inj h)
              | exact Except.noConfusion h
        | some a =>
          have hrest : ∀ xs : List PyValue, req.args = some (.pylist xs) → False := by
            intro xs hxs
            rw [hxs] at hargs
            cases hargs
            rw [hxs] at h
            cases hkw : req.kwargs with
            | none =>
              simp only [hkw, pure, Except.pure] at h
              exact InvokeStage.noConfusion (Except.ok.inj h)
            | some kw =>
              cases kw <;> simp only [hkw, pure, Except.pure] at h <;>
                first
                | exact InvokeStage.noConfusion (Except.ok.inj h)
                | exact Except.noConfusion h
          cases a with
          | pylist xs => exact absurd hargs (fun hh => hrest xs hh)
          | none => simp only [hargs] at h; exact Except.noConfusion h
          | bool b => simp only [hargs] at h; exact Except.noConfusion h
          | int n => simp only [hargs] at h; exact Except.noConfusion h
          | str s => simp only [hargs] at h; exact Except.noConfusion h
          | bytes bs => simp only [hargs] at h; exact Except.noConfusion h
          | pydict kvs => simp only [hargs] at h; exact Except.noConfusion h

/-- C2: `invoke` returns normally for every registry and request record,
with an envelope holding exactly one of `result`/`error` (plus optional
`warnings`); every exception raised during dispatch is shaped into
`{"error": {"message": "<Kind>: <text>"}}`.  (`invoke` is a total
function of the embedding, so "never raises" is the totality of its
type; the conjuncts pin down the envelope shapes.) -/
theorem invoke_envelope_spec :
    ∀ (reg : Registry) (req : Request),
      ((hasKey "result" (invoke reg req)) = !(hasKey "error" (invoke reg req)))
    ∧ ((invoke reg req).map Prod.fst = ["result"]
        ∨ (invoke reg req).map Prod.fst = ["result", "warnings"]
        ∨ (invoke reg req).map Prod.fst = ["error"]
        ∨ (invoke reg req).map Prod.fst = ["error", "warnings"])
    ∧ (∀ e, invokeTry reg req = .error e →
        invoke reg req = [("error", .ndict [("message", .ofStr (e.kind ++ ": " ++ e.msg))])])
    ∧ (∀ m args kwargs e, invokeTry reg req = .ok (.call m args kwargs) →
        (runCallable m args kwargs).1 = .error e →
        lookupKey "error" (invoke reg req) =
          some (.ndict [("message", .ofStr (e.kind ++ ": " ++ e.msg))])) := by
  intro reg req
  cases hTry : invokeTry reg req with
  | error e =>
    refine ⟨?_, ?_, ?_, ?_⟩
    · simp [invoke, hTry, error_response, hasKey]
    · simp [invoke, hTry, error_response]
    · intro e' h
      cases Except.error.inj h
      simp [invoke, hTry, error_response]
    · intro m args kwargs e' h hre
      exact Except.noConfusion h
  | ok stage =>
    cases stage with
    | done resp =>
      obtain ⟨v, rfl⟩ := describe_ok_shape reg req resp (invokeTry_done reg req resp hTry)
      refine ⟨?_, ?_, ?_, ?_⟩
      · simp [invoke, hTry, hasKey]
      · simp [invoke, hTry]
      · intro e h
        exact Except.noConfusion h
      · intro m args kwargs e h hre
        exact InvokeStage.noConfusion (Except.ok.inj h)
    | call m args kwargs =>
      rcases hrun : runCallable m args kwargs with ⟨out, w⟩
      have hshape :
          invoke reg req =
            (match out with
             | .ok v => result_response (.ofValue v)
             | .error e => error_response (.exc e))
            ++ (if w.length ≠ 0 then [("warnings", .nlist (w.map PyNode.ofStr))] else []) := by
        cases out with
        | ok v =>
          cases w with
          | nil => simp [invoke, hTry, hrun]
          | cons a t => simp [invoke, hTry, hrun]
        | error e =>
          cases w with
          | nil => simp [invoke, hTry, hrun]
          | cons a t => simp [invoke, hTry, hrun]
      refine ⟨?_, ?_, ?_, ?_⟩
      · rw [hshape]
        cases out <;> cases w <;>
          simp [result_response, error_response, hasKey]
      · rw [hshape]
        cases out <;> cases w <;>
          simp [result_response, error_response]
      · intro e h
        exact Except.noConfusion h
      · intro m' a' k' e h hre
        have hinj := Except.ok.inj h
        cases hinj
        rw [hrun] at hre
        simp only at hre
        cases out with
        | ok v => exact Except.noConfusion hre
        | error e0 =>
          cases Except.error.inj hre
          rw [hshape]
          cases w with
          | nil => simp [error_response, lookupKey, List.find?]
          | cons a t => simp [error_response, lookupKey, List.find?]

/-- Witness for C2 at a request whose dispatch raises. -/
theorem invoke_envelope_spec_witness :
    invoke [] { object := some (.str "Nope") } =
      [("error", .ndict [("message", .ofStr ("AttributeError" ++ ": "
        ++ "'TuberRegistry' object has no attribute 'Nope' (Invalid object name 'Nope')"))])] :=
  (invoke_envelope_spec [] { object := some (.str "Nope") }).2.2.1
    { kind := "AttributeError",
      msg := "'TuberRegistry' object has no attribute 'Nope' (Invalid object name 'Nope')" } rfl

/-! ## C1: batch shape, fail-fast and continue-on-error -/

theorem handleSequence_bail (reg : Registry) (coe : Bool) :
    ∀ rs : List Request, handleSequence reg coe true rs = rs.map (fun _ => precedingError)
  | [] => rfl
  | r :: rs => by
    simp [handleSequence, handleSequence_bail reg coe rs]

theorem handleSequence_coe (reg : Registry) :
    ∀ rs : List Request, handleSequence reg true false rs = rs.map (invoke reg)
  | [] => rfl
  | r :: rs => by
    simp [handleSequence, handleSequence_coe reg rs]

theorem handleSequence_length (reg : Registry) (coe : Bool) :
    ∀ (bail : Bool) (rs : List Request),
      (handleSequence reg coe bail rs).length = rs.length
  | _, [] => rfl
  | bail, r :: rs => by
    cases bail with
    | true => simp [handleSequence, handleSequence_length reg coe true rs]
    | false =>
      simp only [handleSequence, Bool.false_eq_true, if_false, List.length_cons]
      rw [handleSequence_length reg coe _ rs]

theorem handleSequence_failfast_none (reg : Registry) :
    ∀ rs : List Request,
      (rs.map (invoke reg)).findIdx? (fun env => hasKey "error" env) = Option.none →
      handleSequence reg false false rs = rs.map (invoke reg)
  | [], _ => rfl
  | r :: rs, h => by
    rw [List.map_cons, List.findIdx?_cons] at h
    by_cases hp : hasKey "error" (invoke reg r) = true
    · simp [hp] at h
    · have hp' : hasKey "error" (invoke reg r) = false := by
        cases hx : hasKey "error" (invoke reg r) with
        | false => rfl
        | true => exact absurd hx hp
      rw [if_neg (by simp [hp'])] at h
      rw [List.findIdx?_succ] at h
      have ht : (rs.map (invoke reg)).findIdx? (fun env => hasKey "error" env) = Option.none := by
        cases hx : (rs.map (invoke reg)).findIdx? (fun env => hasKey "error" env) with
        | none => rfl
        | some k => rw [hx] at h; simp at h
      simp [handleSequence, hp', handleSequence_failfast_none reg rs ht]

theorem handleSequence_failfast_some (reg : Registry) :
    ∀ (rs : List Request) (k : Nat),
      (rs.map (invoke reg)).findIdx? (fun env => hasKey "error" env) = some k →
      handleSequence reg false false rs =
        (rs.map (invoke reg)).take (k + 1)
          ++ List.replicate (rs.length - (k + 1)) precedingError
  | [], k, h => by simp at h
  | r :: rs, k, h => by
    rw [List.map_cons, List.findIdx?_cons] at h
    by_cases hp : hasKey "error" (invoke reg r) = true
    · rw [if_pos (by simp [hp])] at h
      cases Option.some.inj h
      simp [handleSequence, hp, handleSequence_bail, List.map_const']
    · have hp' : hasKey "error" (invoke reg r) = false := by
        cases hx : hasKey "error" (invoke reg r) with
        | false => rfl
        | true => exact absurd hx hp
      rw [if_neg (by simp [hp']), List.findIdx?_succ] at h
      cases hx : (rs.map (invoke reg)).findIdx? (fun env => hasKey "error" env) with
      | none => rw [hx] at h; simp at h
      | some k0 =>
        rw [hx] at h
        simp only [Option.map_some'] at h
        cases Option.some.inj h
        simp only [handleSequence, hp', Bool.false_and, Bool.and_false]
        rw [handleSequence_failfast_some reg rs k0 hx]
        simp [List.take_cons, Nat.succ_sub_succ]

/-- C1: for a decoded batch the handler returns one envelope per request
in order ([] yields []); without `continue-on-error` in `X-Tuber-Options`
everything after the first error envelope is the synthetic
"Something went wrong in a preceding call" error and is not dispatched;
with `continue-on-error` every item is dispatched. -/
theorem handle_batch_spec :
    (∀ (h : RequestHandler) (decode : String → String → Except PyErr Body)
       (raw : String) (headers : List (String × String)) (rs : List Request),
       headers.lookup "Content-Type" = Option.none →
       headers.lookup "Accept" = Option.none →
       h.codecs.contains h.default_format = true →
       decode h.default_format raw = .ok (.batch rs) →
       RequestHandler.handle h decode raw headers =
         (h.default_format,
          .nlist ((handleSequence h.registry
            ((xoptsOf headers).contains "continue-on-error") false rs).map .ndict)))
  ∧ (∀ (reg : Registry) (coe bail : Bool) (rs : List Request),
      (handleSequence reg coe bail rs).length = rs.length)
  ∧ (∀ (reg : Registry) (coe : Bool), handleSequence reg coe false [] = [])
  ∧ (precedingError = [("error", .ndict [("message",
      .ofStr "Something went wrong in a preceding call")])])
  ∧ (∀ (reg : Registry) (rs : List Request),
      handleSequence reg true false rs = rs.map (invoke reg))
  ∧ (∀ (reg : Registry) (rs : List Request),
      (rs.map (invoke reg)).findIdx? (fun env => hasKey "error" env) = Option.none →
      handleSequence reg false false rs = rs.map (invoke reg))
  ∧ (∀ (reg : Registry) (rs : List Request) (k : Nat),
      (rs.map (invoke reg)).findIdx? (fun env => hasKey "error" env) = some k →
      handleSequence reg false false rs =
        (rs.map (invoke reg)).take (k + 1)
          ++ List.replicate (rs.length - (k + 1)) precedingError) := by
  refine ⟨?_, ?_, ?_, rfl, handleSequence_coe, handleSequence_failfast_none,
          handleSequence_failfast_some⟩
  · intro h decode raw headers rs hct hac hcf hdec
    have hmem : h.default_format ∈ h.codecs := by simpa using hcf
    simp [RequestHandler.handle, RequestHandler.handleCore, requestFormatOf,
      hct, hac, hcf, hdec, hmem]
  · intro reg coe bail rs
    exact handleSequence_length reg coe bail rs
  · intro reg coe
    rfl

/-- Witness for C1 at a three-request batch whose second item errors. -/
theorem handle_batch_spec_witness :
    RequestHandler.handle fixHandler
        (fun _ _ => .ok (.batch [fixReqOk, fixReqErr, fixReqOk])) "" [] =
      ("application/json",
       .nlist ((handleSequence fixHandler.registry false false
         [fixReqOk, fixReqErr, fixReqOk]).map .ndict)) := by
  have hx : (xoptsOf []).contains "continue-on-error" = false := rfl
  have h := handle_batch_spec.1 fixHandler
    (fun _ _ => .ok (.batch [fixReqOk, fixReqErr, fixReqOk])) "" []
    [fixReqOk, fixReqErr, fixReqOk] rfl rfl rfl rfl
  rw [hx] at h
  exact h

/-! ## C9: warning isolation and scope restoration -/

theorem invokeSt_frame (reg : Registry) (req : Request) (st : List String) :
    invokeSt reg req st = (invoke reg req, st) := by
  unfold invokeSt invoke
  cases hTry : invokeTry reg req with
  | error e => rfl
  | ok stage =>
    cases stage with
    | done resp => rfl
    | call m args kwargs =>
      rcases hrun : runCallable m args kwargs with ⟨out, w⟩
      simp [hrun]

theorem handleSequenceSt_frame (reg : Registry) (coe : Bool) :
    ∀ (bail : Bool) (st : List String) (rs : List Request),
      handleSequenceSt reg coe bail st rs = (handleSequence reg coe bail rs, st)
  | _, _, [] => rfl
  | bail, st, r :: rs => by
    cases bail with
    | true =>
      simp only [handleSequenceSt, handleSequence, if_true]
      rw [handleSequenceSt_frame reg coe true st rs]
    | false =>
      simp only [handleSequenceSt, handleSequence, Bool.false_eq_true, if_false]
      rw [invokeSt_frame reg r st]
      simp only
      rw [handleSequenceSt_frame reg coe _ st rs]

theorem invoke_warnings_own (reg : Registry) (req : Request) :
    (invokeEmissions reg req = [] →
      lookupKey "warnings" (invoke reg req) = Option.none)
  ∧ (invokeEmissions reg req ≠ [] →
      lookupKey "warnings" (invoke reg req) =
        some (.nlist ((invokeEmissions reg req).map PyNode.ofStr))) := by
  cases hTry : invokeTry reg req with
  | error e =>
    refine ⟨fun _ => ?_, fun hne => ?_⟩
    · simp [invoke, hTry, error_response, lookupKey, List.find?]
    · exact absurd (by simp [invokeEmissions, hTry]) hne
  | ok stage =>
    cases stage with
    | done resp =>
      obtain ⟨v, rfl⟩ := describe_ok_shape reg req resp (invokeTry_done reg req resp hTry)
      refine ⟨fun _ => ?_, fun hne => ?_⟩
      · simp [invoke, hTry, lookupKey, List.find?]
      · exact absurd (by simp [invokeEmissions, hTry]) hne
    | call m args kwargs =>
      rcases hrun : runCallable m args kwargs with ⟨out, w⟩
      have hem : invokeEmissions reg req = w := by
        simp [invokeEmissions, hTry, hrun]
      refine ⟨fun hnil => ?_, fun hne => ?_⟩
      · rw [hem] at hnil
        subst hnil
        cases out with
        | ok v => simp [invoke, hTry, hrun, result_response, lookupKey, List.find?]
        | error e => simp [invoke, hTry, hrun, error_response, lookupKey, List.find?]
      · rw [hem] at hne
        rw [hem]
        cases w with
        | nil => exact absurd rfl hne
        | cons a t =>
          cases out with
          | ok v => simp [invoke, hTry, hrun, result_response, lookupKey, List.find?]
          | error e => simp [invoke, hTry, hrun, error_response, lookupKey, List.find?]

theorem handleSequence_index (reg : Registry) (coe : Bool) :
    ∀ (bail : Bool) (rs : List Request) (i : Nat) (env : List (String × PyNode)),
      (handleSequence reg coe bail rs)[i]? = some env →
      (∃ req, rs[i]? = some req ∧ env = invoke reg req) ∨ env = precedingError
  | _, [], i, env => by intro h; simp [handleSequence] at h
  | bail, r :: rs, i, env => by
    intro h
    cases bail with
    | true =>
      simp only [handleSequence, if_true] at h
      cases i with
      | zero =>
        simp only [List.getElem?_cons_zero] at h
        exact Or.inr (Option.some.inj h).symm
      | succ n =>
        simp only [List.getElem?_cons_succ] at h
        rcases handleSequence_index reg coe true rs n env h with ⟨req, hreq, henv⟩ | hsyn
        · exact Or.inl ⟨req, by simpa using hreq, henv⟩
        · exact Or.inr hsyn
    | false =>
      simp only [handleSequence, Bool.false_eq_true, if_false] at h
      cases i with
      | zero =>
        simp only [List.getElem?_cons_zero] at h
        exact Or.inl ⟨r, by simp, (Option.some.inj h).symm⟩
      | succ n =>
        simp only [List.getElem?_cons_succ] at h
        rcases handleSequence_index reg coe _ rs n env h with ⟨req, hreq, henv⟩ | hsyn
        · exact Or.inl ⟨req, by simpa using hreq, henv⟩
        · exact Or.inr hsyn

/-- C9: warnings captured during the invocation of item `i` are attached
only to envelope `i` (its `warnings` list is exactly the messages its own
method emitted, and is absent when none were emitted); synthetic
fail-fast envelopes carry no warnings; the capture scope is installed per
invocation and the ambient warning state is restored when it exits (both
for one `invoke` and across a whole batch). -/
theorem warning_isolation_spec :
    (∀ (reg : Registry) (req : Request) (st : List String),
      invokeSt reg req st = (invoke reg req, st))
  ∧ (∀ (reg : Registry) (coe : Bool) (st : List String) (rs : List Request),
      handleSequenceSt reg coe false st rs = (handleSequence reg coe false rs, st))
  ∧ (∀ (reg : Registry) (req : Request),
      (invokeEmissions reg req = [] →
        lookupKey "warnings" (invoke reg req) = Option.none)
      ∧ (invokeEmissions reg req ≠ [] →
        lookupKey "warnings" (invoke reg req) =
          some (.nlist ((invokeEmissions reg req).map PyNode.ofStr))))
  ∧ (lookupKey "warnings" precedingError = Option.none)
  ∧ (∀ (reg : Registry) (coe : Bool) (rs : List Request) (i : Nat)
       (env : List (String × PyNode)),
      (handleSequence reg coe false rs)[i]? = some env →
      (∃ req, rs[i]? = some req ∧ env = invoke reg req) ∨ env = precedingError) :=
  ⟨invokeSt_frame,
   fun reg coe st rs => handleSequenceSt_frame reg coe false st rs,
   invoke_warnings_own,
   rfl,
   fun reg coe rs i env h => handleSequence_index reg coe false rs i env h⟩

/-- Witness for C9 at the warning-emitting fixture. -/
theorem warning_isolation_spec_witness :
    invokeSt fixRegistry fixReqWarn ["ambient"] = (invoke fixRegistry fixReqWarn, ["ambient"])
  ∧ lookupKey "warnings" (invoke fixRegistry fixReqWarn) =
      some (.nlist [PyNode.ofStr "This is a warning"]) :=
  ⟨warning_isolation_spec.1 fixRegistry fixReqWarn ["ambient"],
   ((warning_isolation_spec.2.2.1 fixRegistry fixReqWarn).2 (by decide)).trans (by rfl)⟩

/-! ## C6: CBOR typed-array tags -/

/-- C6 counterexample: tag 80 is a float tag; the decoder doubles the
element size (`element_size <<= 1`) to 2 bytes, while the claim's "low 2
bits encode log2(element-size-in-bytes)" rule gives `2^(80 & 3) = 1`.  A
1-byte payload is a multiple of the claimed element size, yet decoding
fails. -/
theorem cbor_typed_array_counterexample :
    (80 &&& 0x3 = 0) ∧ (1 % 2 ^ (80 &&& 0x3) = 0)
  ∧ cbor_tag_decode 80 (.bytes [0]) =
      .error { kind := "CBORDecodeValueError",
               msg := "Invalid data size (1) for typed array with tag 80, interpreted as >f2" } :=
  ⟨rfl, rfl, rfl⟩

/-- C6 (amended): for tags 64-87 except 76 with a byte-string payload,
the element size is `1 << (t & 3)`, doubled when the float bit (bit 4) is
set; decoding fails with `CBORDecodeValueError` iff the payload length is
not a multiple of that size, and otherwise yields the flat array of the
dtype given by the tag bits (bit 2 endianness, bit 3 signedness, bit 4
float) over the payload bytes. -/
theorem cbor_typed_array_decode_spec :
    ∀ (t : Nat) (p : List Nat), 64 ≤ t → t ≤ 87 → t ≠ 76 →
      (p.length % typedArrayElementSize t ≠ 0 →
        cbor_tag_decode t (.bytes p) =
          .error { kind := "CBORDecodeValueError",
                   msg := "Invalid data size (" ++ toString p.length
                          ++ ") for typed array with tag " ++ toString t
                          ++ ", interpreted as "
                          ++ ((if t &&& 0x4 != 0 then "<" else ">")
                             ++ (if t &&& 0x10 != 0 then "f"
                                 else if t &&& 0x8 != 0 then "i" else "u")
                             ++ toString (typedArrayElementSize t)) })
    ∧ (p.length % typedArrayElementSize t = 0 →
        cbor_tag_decode t (.bytes p) =
          .ok (some { kind := if t &&& 0x10 != 0 then 'f'
                              else if t &&& 0x8 != 0 then 'i' else 'u',
                      itemsize := typedArrayElementSize t,
                      little := t &&& 0x4 != 0,
                      shape := [p.length / typedArrayElementSize t],
                      cOrder := true,
                      data := p })) := by
  intro t p h64 h87 h76
  constructor
  · intro hmod
    simp only [cbor_tag_decode]
    rw [if_pos (by simp [h64, h87, h76])]
    rw [if_pos (by simpa using hmod)]
  · intro hmod
    simp only [cbor_tag_decode]
    rw [if_pos (by simp [h64, h87, h76])]
    rw [if_neg (by simpa using hmod)]

/-- Witness for C6 (amended) at tag 82 (big-endian float64). -/
theorem cbor_typed_array_decode_spec_witness :
    cbor_tag_decode 82 (.bytes [0, 0, 0, 0, 0, 0, 0, 0]) =
      .ok (some { kind := if 82 &&& 0x10 != 0 then 'f'
                          else if 82 &&& 0x8 != 0 then 'i' else 'u',
                  itemsize := typedArrayElementSize 82,
                  little := 82 &&& 0x4 != 0,
                  shape := [([0, 0, 0, 0, 0, 0, 0, 0] : List Nat).length / typedArrayElementSize 82],
                  cOrder := true,
                  data := [0, 0, 0, 0, 0, 0, 0, 0] }) :=
  (cbor_typed_array_decode_spec 82 [0, 0, 0, 0, 0, 0, 0, 0]
    (by decide) (by decide) (by decide)).2 (by decide)

/-! ## C7: JSON byte-sequence wrapping and decoding -/

/-- C7 counterexample: the mapping `{"bytes": [256]}` has key set exactly
`{bytes}` but does not decode to a raw byte sequence: `bytes([256])`
raises `ValueError`, and the handler `except e as ValueError:` evaluates
the undefined name `e`, so decoding raises `NameError`. -/
theorem json_bytes_hook_counterexample :
    decodeJson (.obj [("bytes", .arr [.num 256])]) =
      .error { kind := "NameError", msg := "name 'e' is not defined" } := rfl

theorem toJValList_map_int (bs : List Nat) :
    toJValList (bs.map (fun b => PyValue.int (Int.ofNat b))) =
      some (bs.map (fun b => JVal.num (Int.ofNat b))) := by
  induction bs with
  | nil => rfl
  | cons a t ih =>
    simp only [List.map_cons, toJValList, toJVal]
    rw [ih]

theorem decodeJsonList_map_num (bs : List Nat) :
    decodeJsonList (bs.map (fun b => JVal.num (Int.ofNat b))) =
      .ok (bs.map (fun b => DVal.num (Int.ofNat b))) := by
  induction bs with
  | nil => rfl
  | cons a t ih =>
    simp only [List.map_cons, decodeJsonList, decodeJson]
    rw [ih]

theorem pyBytesOf_map_num : ∀ (bs : List Nat), (∀ b ∈ bs, b < 256) →
    pyBytesOf (.arr (bs.map (fun b => DVal.num (Int.ofNat b)))) = .ok bs := by
  intro bs h
  induction bs with
  | nil => rfl
  | cons a t ih =>
    have hlt := h a (List.mem_cons_self a t)
    have ha : (Int.ofNat a) < 256 := Int.ofNat_lt.mpr hlt
    have ha0 : (0 : Int) ≤ Int.ofNat a := Int.ofNat_zero_le a
    have ht := ih (fun b hb => h b (List.mem_cons_of_mem a hb))
    simp only [pyBytesOf] at ht ⊢
    rw [List.map_cons, List.foldrM_cons, ht]
    simp only [bind, Except.bind]
    rw [if_pos ⟨ha0, ha⟩]
    simp [Int.toNat_ofNat]

/-- C7 (amended): the JSON encoder wraps a byte sequence `B` as
`{"bytes": [b0, b1, …]}` and leaves every other value alone; the decoder
hook maps a mapping whose key set is exactly `{bytes}` or
`{bytes, subtype}` back through `bytes(...)` (so to the raw byte sequence
whenever that conversion succeeds, as it does for the encoder's output:
`decode(encode(B)) = B`), and maps every other mapping to the
dotted-accessor record. -/
theorem json_bytes_roundtrip_spec :
    (∀ bs : List Nat, wrap_bytes_for_json (.bytes bs) =
      .pydict [("bytes", .pylist (bs.map (fun b => PyValue.int (Int.ofNat b))))])
  ∧ (∀ v : PyValue, (∀ bs, v ≠ .bytes bs) → wrap_bytes_for_json v = v)
  ∧ (∀ bs : List Nat, (∀ b ∈ bs, b < 256) →
      decodeJson ((toJVal (wrap_bytes_for_json (.bytes bs))).getD .null) = .ok (.bytes bs))
  ∧ (∀ (kvs : List (String × DVal)) (bs : List Nat),
      (dHasKey "bytes" kvs
        && (kvs.length == 1 || (kvs.length == 2 && dHasKey "subtype" kvs))) = true →
      pyBytesOf ((dLookup "bytes" kvs).getD .null) = .ok bs →
      jsonObjectHook kvs = .ok (.bytes bs))
  ∧ (∀ kvs : List (String × DVal),
      (dHasKey "bytes" kvs
        && (kvs.length == 1 || (kvs.length == 2 && dHasKey "subtype" kvs))) = false →
      jsonObjectHook kvs = .ok (.result kvs)) := by
  refine ⟨fun bs => rfl, ?_, ?_, ?_, ?_⟩
  · intro v hv
    cases v with
    | bytes bs => exact absurd rfl (hv bs)
    | none => rfl
    | bool b => rfl
    | int n => rfl
    | str s => rfl
    | pylist xs => rfl
    | pydict kvs => rfl
  · intro bs hlt
    have h1 : toJVal (wrap_bytes_for_json (.bytes bs)) =
        some (.obj [("bytes", .arr (bs.map (fun b => JVal.num (Int.ofNat b))))]) := by
      simp only [wrap_bytes_for_json, toJVal, toJValEntries, toJValList]
      rw [toJValList_map_int]
    rw [h1, Option.getD_some]
    have h2 : decodeJson (.arr (bs.map (fun b => JVal.num (Int.ofNat b)))) =
        .ok (.arr (bs.map (fun b => DVal.num (Int.ofNat b)))) := by
      simp only [decodeJson]
      rw [decodeJsonList_map_num]
    have h3 : decodeJsonEntries
        [("bytes", .arr (bs.map (fun b => JVal.num (Int.ofNat b))))] =
        .ok [("bytes", .arr (bs.map (fun b => DVal.num (Int.ofNat b))))] := by
      simp only [decodeJsonEntries]
      rw [h2]
    simp only [decodeJson]
    rw [h3]
    have h4 : pyBytesOf ((dLookup "bytes"
        [("bytes", DVal.arr (bs.map (fun b => DVal.num (Int.ofNat b))))]).getD .null) =
        .ok bs := by
      have hl : dLookup "bytes"
          [("bytes", DVal.arr (bs.map (fun b => DVal.num (Int.ofNat b))))] =
          some (DVal.arr (bs.map (fun b => DVal.num (Int.ofNat b)))) := rfl
      rw [hl, Option.getD_some]
      exact pyBytesOf_map_num bs hlt
    simp only [jsonObjectHook]
    rw [if_pos (by rfl)]
    rw [h4]
  · intro kvs bs hcond hbytes
    simp only [jsonObjectHook]
    rw [if_pos hcond, hbytes]
  · intro kvs hcond
    simp only [jsonObjectHook]
    rw [if_neg (by rw [hcond]; exact Bool.false_ne_true)]

/-- Witness for C7 (amended) at a concrete byte sequence. -/
theorem json_bytes_roundtrip_spec_witness :
    decodeJson ((toJVal (wrap_bytes_for_json (.bytes [1, 255, 0]))).getD .null) =
      .ok (.bytes [1, 255, 0]) :=
  json_bytes_roundtrip_spec.2.2.1 [1, 255, 0] (by decide)

/-! ## C8: content negotiation -/

/-- C8: `Content-Type` selects the request codec, defaulting to
`application/json`; an unregistered type produces a `ValueError` error
envelope encoded in the default format.  The response codec comes from
the comma-split, stripped `Accept` tokens: `*/*` or `application/*`
echoes the request codec, otherwise the first registered token wins, and
no match produces an error envelope (encoded in the request codec);
with no `Accept` header the response codec equals the request codec. -/
theorem content_negotiation_spec :
    (∀ (reg : Registry) (codecs : List String),
      ({ registry := reg, codecs := codecs } : RequestHandler).default_format
        = "application/json")
  ∧ (∀ (h : RequestHandler) (headers : List (String × String)),
      headers.lookup "Content-Type" = Option.none →
      requestFormatOf h headers = h.default_format)
  ∧ (∀ (h : RequestHandler) (headers : List (String × String)) (ct : String),
      headers.lookup "Content-Type" = some ct → requestFormatOf h headers = ct)
  ∧ (∀ (h : RequestHandler) (decode : String → String → Except PyErr Body)
       (raw : String) (headers : List (String × String)),
      h.codecs.contains (requestFormatOf h headers) = false →
      RequestHandler.handle h decode raw headers =
        (h.default_format, .ndict (error_response (.exc
          { kind := "ValueError",
            msg := "Not able to decode media type " ++ requestFormatOf h headers }))))
  ∧ (∀ (h : RequestHandler) (decode : String → String → Except PyErr Body)
       (raw : String) (headers : List (String × String)) (r : Request),
      headers.lookup "Accept" = Option.none →
      h.codecs.contains (requestFormatOf h headers) = true →
      decode (requestFormatOf h headers) raw = .ok (.single r) →
      RequestHandler.handle h decode raw headers =
        (requestFormatOf h headers, .ndict (invoke h.registry r)))
  ∧ (∀ (codecs : List String) (fmt accept : String),
      ((acceptTypesOf accept).contains "*/*"
        || (acceptTypesOf accept).contains "application/*") = true →
      responseFormatOf codecs fmt accept = .ok fmt)
  ∧ (∀ (codecs : List String) (fmt accept t : String),
      ((acceptTypesOf accept).contains "*/*"
        || (acceptTypesOf accept).contains "application/*") = false →
      (acceptTypesOf accept).find? (fun t0 => codecs.contains t0) = some t →
      responseFormatOf codecs fmt accept = .ok t)
  ∧ (∀ (codecs : List String) (fmt accept : String),
      ((acceptTypesOf accept).contains "*/*"
        || (acceptTypesOf accept).contains "application/*") = false →
      (acceptTypesOf accept).find? (fun t0 => codecs.contains t0) = Option.none →
      responseFormatOf codecs fmt accept =
        .error { kind := "ValueError",
                 msg := "Not able to encode any media type matching " ++ accept })
  ∧ (∀ (h : RequestHandler) (decode : String → String → Except PyErr Body)
       (raw : String) (headers : List (String × String)) (accept : String) (e : PyErr),
      headers.lookup "Accept" = some accept →
      h.codecs.contains (requestFormatOf h headers) = true →
      responseFormatOf h.codecs (requestFormatOf h headers) accept = .error e →
      RequestHandler.handle h decode raw headers =
        (requestFormatOf h headers, .ndict (error_response (.exc e)))) := by
  refine ⟨?_, ?_, ?_, ?_, ?_, ?_, ?_, ?_, ?_⟩
  · intro reg codecs
    rfl
  · intro h headers hct
    simp [requestFormatOf, hct]
  · intro h headers ct hct
    simp [requestFormatOf, hct]
  · intro h decode raw headers hcf
    have hnm : requestFormatOf h headers ∉ h.codecs := by simpa using hcf
    simp [RequestHandler.handle, RequestHandler.handleCore, hcf, hnm]
  · intro h decode raw headers r hac hcf hdec
    have hm : requestFormatOf h headers ∈ h.codecs := by simpa using hcf
    simp [RequestHandler.handle, RequestHandler.handleCore, hac, hcf, hdec, hm]
  · intro codecs fmt accept hw
    simp only [responseFormatOf]
    rw [if_pos hw]
  · intro codecs fmt accept t hw hfind
    simp only [responseFormatOf]
    rw [if_neg (by rw [hw]; exact Bool.false_ne_true), hfind]
  · intro codecs fmt accept hw hfind
    simp only [responseFormatOf]
    rw [if_neg (by rw [hw]; exact Bool.false_ne_true), hfind]
  · intro h decode raw headers accept e hac hcf hresp
    have hm : requestFormatOf h headers ∈ h.codecs := by simpa using hcf
    simp [RequestHandler.handle, RequestHandler.handleCore, hac, hcf, hresp, hm]

/-- Witness for C8 at concrete headers on the fixture handler. -/
theorem content_negotiation_spec_witness :
    RequestHandler.handle fixHandler (fun _ _ => .ok (.single fixReqOk)) ""
        [("Content-Type", "text/html")] =
      ("application/json", .ndict (error_response (.exc
        { kind := "ValueError", msg := "Not able to decode media type " ++ "text/html" })))
  ∧ responseFormatOf fixHandler.codecs "application/cbor"
      " application/json , application/cbor" = .ok "application/json" := by
  constructor
  · have h := content_negotiation_spec.2.2.2.1 fixHandler
      (fun _ _ => .ok (.single fixReqOk)) "" [("Content-Type", "text/html")] (by rfl)
    have hfmt : requestFormatOf fixHandler [("Content-Type", "text/html")] = "text/html" := rfl
    rw [hfmt] at h
    exact h
  · have h := content_negotiation_spec.2.2.2.2.2.2.1 fixHandler.codecs "application/cbor"
      " application/json , application/cbor" "application/json" (by rfl) (by rfl)
    exact h
